import Mathlib

/-!
FINDR request scripts: a shallow embedding.

Sources embedded here:

* `packages/hardhat/scripts/custom-chainlink-request.js`: the request script
  (`main`, `checkStore`, `cleanup`, `getEncryptedSecrets`,
  `verifyOffchainSecrets`, `createGist`, `checkTokenGistScope`, `isObject`);
* `packages/hardhat/scripts/OpenAI-request.js`: the request source run by the
  oracle network;
* `packages/hardhat/scripts/functions-sub.js`: the subscription script.

JavaScript is single threaded: timer callbacks and event listeners run one at
a time, each to completion, and promise reactions run right after the callback
that queued them.  A run of the script is therefore a list of callbacks
(`Task`) applied in order to an explicit state (`Session`).  Code that calls
the outside (the chain, the file system, HTTP, the crypto library) is a `Run`:
the list of calls made and the value returned or error thrown, with the
answers of the outside supplied by a `World`.  Of the console output only the
lines that show a value computed by the scripts are recorded.
-/

namespace Findr

/-! ## Errors -/

/-- An exception raised while the script runs. -/
inductive JsError where
  /-- The script's own `throw Error(message)`. -/
  | error (message : String)
  /-- The engine's error for reading an identifier that no scope declares. -/
  | referenceError (identifier : String)
  /-- The engine's error for a property access on `null` or `undefined`. -/
  | typeError (detail : String)
  deriving DecidableEq, Repr

/-! ## The request / fulfillment rendezvous (`main`, lines 80-179) -/

/-- The request id: `requestEvent.args.id`, a `bytes32` decoded to a hex string. -/
abbrev RequestId := String

/-- A `bytes` event argument.  The decoded JavaScript value is the string
`"0x"` followed by two hex digits per byte, so the value is `"0x"` exactly
when the list is empty, and `BigInt` accepts every other value. -/
abbrev Bytes := List Nat

/-- The object an event listener writes into `store` (lines 81-89). -/
inductive StoreEntry where
  /-- The entry `{ userCallbackError: true, msg: msg }`. -/
  | userCallbackError (msg : String)
  /-- The entry `{ userCallbackRawError: true, msg: msg }`. -/
  | userCallbackRawError (msg : String)
  /-- The entry `{ response: response, err: err }`. -/
  | aiReviewResponse (response err : Bytes)
  deriving DecidableEq, Repr

/-- The three events the script listens to, with the listener arguments. -/
inductive OracleEvent where
  | UserCallbackError (eventRequestId : RequestId) (msg : String)
  | UserCallbackRawError (eventRequestId : RequestId) (msg : String)
  | AIReviewResponse (eventRequestId : RequestId) (response err : Bytes)
  deriving DecidableEq, Repr

/-- The id an event is keyed by. -/
def OracleEvent.eventRequestId : OracleEvent → RequestId
  | .UserCallbackError i _ => i
  | .UserCallbackRawError i _ => i
  | .AIReviewResponse i _ _ => i

/-- The entry the listener of an event stores. -/
def OracleEvent.entry : OracleEvent → StoreEntry
  | .UserCallbackError _ msg => .userCallbackError msg
  | .UserCallbackRawError _ msg => .userCallbackRawError msg
  | .AIReviewResponse _ response err => .aiReviewResponse response err

/-- The `store` object: `store[id]` is `undefined` (`none`) or an entry. -/
abbrev Store := RequestId → Option StoreEntry

/-- The initial `let store = {}`. -/
def Store.empty : Store := fun _ => none

/-- The assignment `store[id] = entry`. -/
def Store.set (store : Store) (id : RequestId) (entry : StoreEntry) : Store :=
  fun k => if k = id then some entry else store k

/-- The listener bodies of lines 81-89: `store[eventRequestId] = entry`. -/
def deliver (store : Store) (e : OracleEvent) : Store :=
  store.set e.eventRequestId e.entry

/-- State of the promise created at line 91. -/
inductive PromiseState where
  | pending
  | fulfilled
  | rejected (reason : String)
  deriving DecidableEq, Repr

/-- Lines written by `checkStore` and by the handler of `main()`. -/
inductive LogLine where
  | fulfilled (requestId : RequestId)
  | callbackErrorHint
  | rawErrorHint
  | responseValue (value : Nat)
  | errorMessage (err : Bytes)
  | uncaught (reason : String)
  deriving DecidableEq, Repr

/-- The reason passed to `reject` by the timer of lines 170-178. -/
def timeoutMessage : String :=
  "A response not received within 5 minutes of the request " ++
    "being initiated and has been canceled. Your subscription " ++
    "was not charged. Please make a new request."

/-- What the JavaScript runtime does with a rejected promise nobody handles
(the promise of an `async` timer callback that threw): Node ends the process
with code 1 by default, and can be configured to only warn. -/
structure Runtime where
  exitOnUnhandledRejection : Bool
  deriving DecidableEq, Repr

/-- Everything the callbacks of one run of `main` read or write once polling
has started. -/
structure Session where
  /-- The `requestId` of line 130. -/
  requestId : RequestId
  /-- The `doGistCleanup` of line 62 (`undefined` is falsy: `false`). -/
  doGistCleanup : Bool
  store : Store
  /-- The interval of line 167 is registered and `clearInterval` was not called. -/
  polling : Bool
  /-- The timer of line 170 is registered and has not fired. -/
  timeoutArmed : Bool
  cleanupInProgress : Bool
  promise : PromiseState
  /-- Number of calls of `resolve`. -/
  resolveCalls : Nat
  /-- Number of calls of `reject`. -/
  rejectCalls : Nat
  /-- Number of times the body of `checkStore` was entered. -/
  checkStoreRuns : Nat
  /-- Errors thrown out of `checkStore`, oldest first. -/
  thrown : List JsError
  console : List LogLine
  /-- The argument of `process.exit`, once it was called. -/
  exitCode : Option Nat

/-- The state right after lines 167-178 registered the interval and the timer.
`store` holds what the listeners recorded while the request was submitted. -/
def Session.start (requestId : RequestId) (doGistCleanup : Bool) (store : Store) : Session where
  requestId := requestId
  doGistCleanup := doGistCleanup
  store := store
  polling := true
  timeoutArmed := true
  cleanupInProgress := false
  promise := .pending
  resolveCalls := 0
  rejectCalls := 0
  checkStoreRuns := 0
  thrown := []
  console := []
  exitCode := none

/-- Append a line to the console. -/
def Session.print (s : Session) (l : LogLine) : Session :=
  { s with console := s.console ++ [l] }

/-- The call `resolve()`: counted, and it settles the promise if still pending. -/
def resolve (s : Session) : Session :=
  { s with
    resolveCalls := s.resolveCalls + 1
    promise := if s.promise = .pending then .fulfilled else s.promise }

/-- The call `reject(reason)`: counted, and it settles the promise if still pending. -/
def reject (s : Session) (reason : String) : Session :=
  { s with
    rejectCalls := s.rejectCalls + 1
    promise := if s.promise = .pending then .rejected reason else s.promise }

/-- The function `cleanup` of lines 93-103. -/
def cleanup (s : Session) : Session :=
  if s.doGistCleanup then
    if !s.cleanupInProgress then
      resolve { s with cleanupInProgress := true }
    else
      s
  else
    resolve s

/-- The value `BigInt(response)` of a non-empty `bytes` value (big endian). -/
def bytesToNat (b : Bytes) : Nat :=
  b.foldl (fun acc x => acc * 256 + x) 0

/-- The function `checkStore` of lines 137-165.  The second component is the
error the call threw, if any; what it did before throwing is kept.

In the two error branches the template `${msg}` (line 146) and the argument
`msg` (line 149) read an identifier that is declared nowhere in scope (the
listeners' parameter `msg` is local to them; the entry's field is
`result.msg`), so evaluation throws before `clearInterval` is reached. -/
def checkStore (s : Session) : Session × Option JsError :=
  let s := { s with checkStoreRuns := s.checkStoreRuns + 1 }
  match s.store s.requestId with
  | none => (s, none)
  | some result =>
    let s := s.print (.fulfilled s.requestId)
    match result with
    | .userCallbackError _ =>
      (s.print .callbackErrorHint, some (.referenceError "msg"))
    | .userCallbackRawError _ =>
      (s.print .rawErrorHint, some (.referenceError "msg"))
    | .aiReviewResponse response err =>
      let s := if response ≠ [] then s.print (.responseValue (bytesToNat response)) else s
      let s := if err ≠ [] then s.print (.errorMessage err) else s
      (cleanup { s with polling := false }, none)

/-- The promise reactions that run once a callback has returned: when the
promise of line 91 is settled, `main()` settles the same way and the handlers
of lines 389-394 call `process.exit(0)`, or log the reason and call
`process.exit(1)`. -/
def settle (s : Session) : Session :=
  match s.exitCode with
  | some _ => s
  | none =>
    match s.promise with
    | .pending => s
    | .fulfilled => { s with exitCode := some 0 }
    | .rejected reason => { (s.print (.uncaught reason)) with exitCode := some 1 }

/-- An `async` callback threw: its promise is rejected and nobody handles it. -/
def unhandledRejection (rt : Runtime) (s : Session) (e : JsError) : Session :=
  let s := { s with thrown := s.thrown ++ [e] }
  if rt.exitOnUnhandledRejection then { s with exitCode := some 1 } else s

/-- One callback run by the event loop. -/
inductive Task where
  /-- An event is delivered to its listener. -/
  | event (e : OracleEvent)
  /-- The interval of line 167 fires. -/
  | tick
  /-- The timer of line 170 fires. -/
  | timeout
  deriving DecidableEq, Repr

/-- Run one callback to completion.  After `process.exit` nothing runs; a
cleared interval and a fired timer do not run. -/
def step (rt : Runtime) (s : Session) (t : Task) : Session :=
  match s.exitCode with
  | some _ => s
  | none =>
    match t with
    | .event e => { s with store := deliver s.store e }
    | .tick =>
      if s.polling then
        match checkStore s with
        | (s', none) => settle s'
        | (s', some e) => unhandledRejection rt s' e
      else s
    | .timeout =>
      if s.timeoutArmed then
        settle (reject { s with timeoutArmed := false } timeoutMessage)
      else s

/-- Run a list of callbacks in order. -/
def run (rt : Runtime) (s : Session) (tasks : List Task) : Session :=
  tasks.foldl (step rt) s

/-- The task is the delivery of an event keyed by `id`. -/
def Task.recordsFor (id : RequestId) : Task → Bool
  | .event e => e.eventRequestId == id
  | _ => false

/-- What holds of every state a run reaches from `Session.start`: while the
process has not exited nothing was settled, and a settled promise has ended
the process. -/
structure Session.Consistent (s : Session) : Prop where
  running : s.exitCode = none →
    s.promise = .pending ∧ s.resolveCalls = 0 ∧ s.rejectCalls = 0 ∧
      s.cleanupInProgress = false ∧ s.polling = true ∧ s.timeoutArmed = true
  atMostOnce : s.resolveCalls + s.rejectCalls ≤ 1
  fulfilled : s.promise = .fulfilled → s.rejectCalls = 0 ∧ s.exitCode = some 0

/-! ## JavaScript values -/

/-- A JavaScript value built from `undefined`, `null`, booleans, integral
numbers, strings, arrays and plain objects (object literals and parsed JSON
objects, whose `constructor` is the inherited `Object`).  The properties of an
object are listed in enumeration order. -/
inductive JsValue where
  | undefined
  | null
  | bool (b : Bool)
  | num (n : Int)
  | str (s : String)
  | arr (items : List JsValue)
  | obj (props : List (String × JsValue))

namespace JsValue

/-- The conversion `ToBoolean`, as applied by `!value` and `value && ...`. -/
def truthy : JsValue → Bool
  | undefined => false
  | null => false
  | bool b => b
  | num n => n != 0
  | str s => s != ""
  | arr _ => true
  | obj _ => true

/-- The property read `value[key]` for the keys `verifyOffchainSecrets` uses
(`"0x0"` and lower-cased addresses): none of them names an inherited property,
an array index or `length`, so only an object's own properties can answer.
Reading a property of `undefined` or `null` throws. -/
def get (v : JsValue) (key : String) : Except JsError JsValue :=
  match v with
  | undefined => .error (.typeError ("Cannot read properties of undefined (reading " ++ key ++ ")"))
  | null => .error (.typeError ("Cannot read properties of null (reading " ++ key ++ ")"))
  | obj props => .ok ((props.lookup key).getD undefined)
  | _ => .ok undefined

/-- One hexadecimal digit, lower case. -/
def hexDigit (n : Nat) : Char :=
  if n < 10 then Char.ofNat (48 + n) else Char.ofNat (87 + n)

/-- The escape of one character inside a JSON string (`QuoteJSONString`). -/
def escapeChar (c : Char) : String :=
  if c = '"' then "\\\""
  else if c = '\\' then "\\\\"
  else if c = '\n' then "\\n"
  else if c = '\r' then "\\r"
  else if c = '\t' then "\\t"
  else if c.toNat = 8 then "\\b"
  else if c.toNat = 12 then "\\f"
  else if c.toNat < 32 then
    "\\u00" ++ String.mk [hexDigit (c.toNat / 16), hexDigit (c.toNat % 16)]
  else c.toString

/-- A string as JSON text. -/
def quote (s : String) : String :=
  "\"" ++ String.join (s.data.map escapeChar) ++ "\""

mutual
/-- The builtin `JSON.stringify(value)`: `undefined` at top level gives
`undefined` (`none`), inside an array it is written `null`, and a property
whose value is `undefined` is left out. -/
def stringify : JsValue → Option String
  | undefined => none
  | null => some "null"
  | bool b => some (if b then "true" else "false")
  | num n => some (toString n)
  | str s => some (quote s)
  | arr items => some ("[" ++ ",".intercalate (stringifyItems items) ++ "]")
  | obj props => some ("\x7b" ++ ",".intercalate (stringifyProps props) ++ "\x7d")
/-- The elements of an array as JSON texts. -/
def stringifyItems : List JsValue → List String
  | [] => []
  | v :: vs => (stringify v).getD "null" :: stringifyItems vs
/-- The properties of an object as JSON members. -/
def stringifyProps : List (String × JsValue) → List String
  | [] => []
  | (k, v) :: ps =>
    match stringify v with
    | none => stringifyProps ps
    | some t => (quote k ++ ":" ++ t) :: stringifyProps ps
end

mutual
/-- The conversion `ToString`, as applied by a template literal. -/
def toStr : JsValue → String
  | undefined => "undefined"
  | null => "null"
  | bool b => if b then "true" else "false"
  | num n => toString n
  | str s => s
  | arr items => ",".intercalate (joinItems items)
  | obj _ => "[object Object]"
/-- The texts `Array.prototype.join` puts between separators: `undefined`
and `null` elements give the empty text. -/
def joinItems : List JsValue → List String
  | [] => []
  | undefined :: vs => "" :: joinItems vs
  | null :: vs => "" :: joinItems vs
  | v :: vs => toStr v :: joinItems vs
end

end JsValue

/-- The function `isObject` of lines 385-387: not `null`, of type `"object"`,
and constructed by `Object` (arrays are constructed by `Array`). -/
def isObject : JsValue → Bool
  | .obj _ => true
  | _ => false

/-- The builtin `Array.isArray`. -/
def isArray : JsValue → Bool
  | .arr _ => true
  | _ => false

/-- The test `secrets.length > 0` of line 219, reached only when `secrets` is
not a plain object: a string or an array has a numeric `length`, a boolean or
a number has none (`undefined > 0` is false), and reading `length` of `null`
or `undefined` throws. -/
def lengthPositive : JsValue → Except JsError Bool
  | .undefined => .error (.typeError "Cannot read properties of undefined (reading length)")
  | .null => .error (.typeError "Cannot read properties of null (reading length)")
  | .str s => .ok (decide (0 < s.length))
  | .arr items => .ok (decide (0 < items.length))
  | _ => .ok false

/-- The elements a `for ... of` loop over the value visits (arrays only; the
scripts loop over nothing else). -/
def JsValue.elements : JsValue → List JsValue
  | .arr items => items
  | _ => []

/-- A value of `process.env`, or a string argument, is falsy when it is
`undefined` or the empty string. -/
def falsy : Option String → Bool
  | none => true
  | some s => s == ""

/-! ## Calls to the outside world -/

/-- A node address as the contract call returns it: `"0x"` followed by the
hex digits `hex`, in mixed case. -/
structure Address where
  hex : String
  deriving DecidableEq, Repr

/-- The builtin `toLowerCase` on the ASCII text of an address. -/
def toLowerCase (s : String) : String :=
  String.mk (s.data.map Char.toLower)

/-- The key `nodeAddress.toLowerCase()`. -/
def Address.toLowerCase (a : Address) : String :=
  Findr.toLowerCase ("0x" ++ a.hex)

/-- The response of `GET https://api.github.com/user`. -/
structure UserResponse where
  status : Nat
  statusText : String
  /-- The header `x-oauth-scopes`, when present. -/
  oauthScopes : Option String
  deriving DecidableEq, Repr

/-- What `getEncryptedSecrets` returns: the record `{ gistUrl, encrypted }` or
a string. -/
inductive EncryptedSecrets where
  | record (gistUrl encrypted : String)
  | text (value : String)
  deriving DecidableEq, Repr

/-- A call the scripts make to something outside themselves, as recorded in
the order made. -/
inductive Effect where
  | jsonRpcProvider (url : String)
  | newWallet (privateKey : Option String)
  | readFile (path : String)
  | getDONPublicKey
  | getAllNodePublicKeys
  | sign (privateKey hash : String)
  | encryptWithPublicKey (publicKey message : String)
  | httpGet (url : String)
  | githubGetUser (authorization : String)
  | githubPostGist (authorization fileName content : String)
  | addReview (source : String) (encryptedSecrets : EncryptedSecrets)
      (subscriptionId gasLimit : Nat)
  | waitForReceipt (confirmations : Nat)
  | apiPost (url authorization prompt : String)
  | log (line : String)
  | getContractFactory (name : String)
  | getSigners
  | balanceOf (account : String)
  | transferAndCall (recipient : String) (amount : Int) (subscriptionId : Nat)
  | addConsumer (subscriptionId : Nat) (consumer : String)
  deriving DecidableEq, Repr

/-- The answers of the outside world during one run. -/
structure World where
  /-- The variables of `process.env`. -/
  env : String → Option String
  /-- The constants `CHAINlINK_REQUEST_SPECIFIC_GAS` and `SUBSCRIPTION_ID` of
  `./constants`, which is not among the sources. -/
  gasLimit : Nat
  subscriptionId : Nat
  /-- Whether `new ethers.Wallet(privateKey, provider)` accepts the key. -/
  newWallet : Option String → Except JsError Unit
  readFile : String → Except JsError String
  /-- The result of `oracle.getDONPublicKey()`. -/
  donPublicKey : String
  /-- The first component of `oracle.getAllNodePublicKeys()`. -/
  nodeAddresses : List Address
  /-- The library call `ethcrypto.hash.keccak256`. -/
  keccak256 : String → String
  /-- The library call `ethcrypto.sign`. -/
  sign : String → String → String
  /-- The library calls `ethcrypto.encryptWithPublicKey` and `cipher.stringify`. -/
  encryptWithPublicKey : String → String → String
  /-- The conversion `Buffer.from(text, "hex").toString("base64")`. -/
  hexToBase64 : String → String
  /-- The parsed body `axios.request` gets from a secrets URL, or the error text. -/
  httpGet : String → Except String JsValue
  /-- The answer of `axios.get` to the user lookup, or the error it throws. -/
  githubGetUser : String → Except JsError UserResponse
  /-- The `html_url` of the gist `axios.post` created, or nothing when it fails. -/
  githubPostGist : String → String → String → Option String
  /-- The clock `Date.now()`. -/
  now : Nat
  /-- The outcome of submitting `addReview` and of `requestTx.wait`. -/
  addReview : String → EncryptedSecrets → Except JsError Unit
  /-- The `args.id` of the first `RequestSent` event of the receipt, if any. -/
  requestSentId : Except JsError (Option RequestId)

/-- A run of script code: the calls made, in order, and how it ended. -/
structure Run (α : Type) where
  trace : List Effect
  result : Except JsError α

namespace Run

/-- Return without calling anything. -/
def ret {α : Type} (a : α) : Run α := ⟨[], .ok a⟩

/-- The statement `throw e`. -/
def throw {α : Type} (e : JsError) : Run α := ⟨[], .error e⟩

/-- Sequencing: the second part runs only when the first did not throw. -/
def andThen {α β : Type} (r : Run α) (f : α → Run β) : Run β :=
  match r.result with
  | .error e => ⟨r.trace, .error e⟩
  | .ok a => ⟨r.trace ++ (f a).trace, (f a).result⟩

instance : Monad Run where
  pure := ret
  bind := andThen

/-- One call to the outside, with the answer it got. -/
def call {α : Type} (e : Effect) (answer : Except JsError α) : Run α := ⟨[e], answer⟩

/-- A pure step that may throw. -/
def lift {α : Type} (x : Except JsError α) : Run α := ⟨[], x⟩

end Run

/-! ## Secrets (`custom-chainlink-request.js`, lines 182-355) -/

/-- The split `header.split(", ")`, on the characters of the header; `acc`
holds the current piece, reversed. -/
def splitCommaSpace : List Char → List Char → List String
  | [], acc => [String.mk acc.reverse]
  | ',' :: ' ' :: rest, acc => String.mk acc.reverse :: splitCommaSpace rest []
  | c :: rest, acc => splitCommaSpace rest (c :: acc)

/-- The function `checkTokenGistScope` of lines 330-355. -/
def checkTokenGistScope (w : World) (githubApiToken : String) : Run Bool := do
  let response ← Run.call (.githubGetUser ("Bearer " ++ githubApiToken))
    (w.githubGetUser ("Bearer " ++ githubApiToken))
  if response.status ≠ 200 then
    Run.throw (.error ("Failed to get user data: " ++ toString response.status ++ " " ++
      response.statusText))
  else
    let scopes := response.oauthScopes.map fun h => splitCommaSpace h.data []
    match scopes with
    | none => pure true
    | some pieces =>
      if pieces.head? ≠ some "gist" then
        Run.throw (.error
          "The provided Github API token does not have permissions to read and write Gists")
      else if 1 < pieces.length then do
        Run.call (.log ("WARNING: The provided Github API token has additional " ++
          "permissions beyond reading and writing to Gists")) (.ok ())
        pure true
      else
        pure true

/-- The function `createGist` of lines 299-327. -/
def createGist (w : World) (githubApiToken : String) (encryptedOffchainSecrets : JsValue) :
    Run String := do
  let _ ← checkTokenGistScope w githubApiToken
  let content := (JsValue.stringify encryptedOffchainSecrets).getD "undefined"
  let authorization := "token " ++ githubApiToken
  let fileName := "encrypted-functions-request-data-" ++ toString w.now ++ ".json"
  let posted ← Run.call (.githubPostGist authorization fileName content)
    (.ok (w.githubPostGist authorization fileName content))
  match posted with
  | some gistUrl => pure gistUrl
  | none => do
    Run.call (.log "Failed to create Gist") (.ok ())
    Run.throw (.error "Failed to create Gist")

/-- The function `encrypt` of lines 292-295. -/
def encrypt (w : World) (readerPublicKey message : String) : Run String :=
  Run.call (.encryptWithPublicKey readerPublicKey message)
    (.ok (w.encryptWithPublicKey readerPublicKey message))

/-- The function `encryptWithSignature` of lines 281-288. -/
def encryptWithSignature (w : World) (signerPrivateKey readerPublicKey message : String) :
    Run String := do
  let signature ← Run.call (.sign signerPrivateKey (w.keccak256 message))
    (.ok (w.sign signerPrivateKey (w.keccak256 message)))
  let payload := JsValue.obj [("message", .str message), ("signature", .str signature)]
  encrypt w readerPublicKey ((JsValue.stringify payload).getD "undefined")

/-- The first loop of `verifyOffchainSecrets` (lines 242-257): fetch every
URL in turn; the first failure throws. -/
def fetchSecrets (w : World) : List JsValue → Run (List (JsValue × JsValue))
  | [] => pure []
  | url :: rest => do
    let secrets ← Run.call (.httpGet url.toStr)
      (match w.httpGet url.toStr with
        | .ok data => .ok data
        | .error error => .error (.error
            ("Failed to fetch off-chain secrets from " ++ url.toStr ++ "\n" ++ error)))
    let others ← fetchSecrets w rest
    pure ((url, secrets) :: others)

/-- The inner loop of lines 268-274: every node address needs a truthy entry
under its lower-cased form, or else a truthy entry under `"0x0"`. -/
def checkNodeAddresses (secrets : JsValue) : List Address → Except JsError Unit
  | [] => .ok ()
  | nodeAddress :: rest => do
    let own ← secrets.get nodeAddress.toLowerCase
    if !own.truthy then
      let dflt ← secrets.get "0x0"
      if !dflt.truthy then
        .error (.error ("No secrets specified for node " ++ nodeAddress.toLowerCase ++
          " and " ++ "no default secrets found."))
      else checkNodeAddresses secrets rest
    else checkNodeAddresses secrets rest

/-- The text of the error thrown at lines 261-265. -/
def mismatchMessage (url firstUrl : JsValue) : String :=
  "Off-chain secrets URLs " ++ url.toStr ++ " and " ++ firstUrl.toStr ++ " " ++
    "do not contain the same JSON object. All secrets URLs must have an " ++
    "identical JSON object."

/-- The second loop of `verifyOffchainSecrets` (lines 259-275), with `first`
standing for `offchainSecretsResponses[0]`. -/
def checkResponses (first : JsValue × JsValue) (nodeAddresses : List Address) :
    List (JsValue × JsValue) → Except JsError Unit
  | [] => .ok ()
  | (url, secrets) :: rest =>
    if JsValue.stringify secrets ≠ JsValue.stringify first.2 then
      .error (.error (mismatchMessage url first.1))
    else do
      checkNodeAddresses secrets nodeAddresses
      checkResponses first nodeAddresses rest

/-- The function `verifyOffchainSecrets` of lines 239-277. -/
def verifyOffchainSecrets (w : World) (secretsURLs : JsValue) : Run Bool := do
  let nodeAddresses ← Run.call .getAllNodePublicKeys (.ok w.nodeAddresses)
  let offchainSecretsResponses ← fetchSecrets w secretsURLs.elements
  match offchainSecretsResponses with
  | [] => pure true
  | first :: _ => do
    Run.lift (checkResponses first nodeAddresses offchainSecretsResponses)
    pure true

/-- The function `getEncryptedSecrets` of lines 188-234. -/
def getEncryptedSecrets (w : World) (secrets : JsValue) (signerPrivateKey : Option String) :
    Run EncryptedSecrets := do
  let fetched ← Run.call .getDONPublicKey (.ok w.donPublicKey)
  let DONPublicKey := fetched.drop 2
  if isObject secrets && secrets.truthy then
    match signerPrivateKey with
    | none => Run.throw (.error "signerPrivateKey is required to encrypt inline secrets")
    | some key =>
      if key = "" then
        Run.throw (.error "signerPrivateKey is required to encrypt inline secrets")
      else do
        let cipher ← encryptWithSignature w key DONPublicKey
          ((JsValue.stringify secrets).getD "undefined")
        let offchainSecrets := JsValue.obj [("0x0", .str (w.hexToBase64 cipher))]
        match w.env "GITHUB_API_TOKEN" with
        | none => Run.throw (.error "GITHUB_API_TOKEN environment variable not set")
        | some token =>
          if token = "" then
            Run.throw (.error "GITHUB_API_TOKEN environment variable not set")
          else do
            let secretsURL ← createGist w token offchainSecrets
            Run.call (.log ("Successfully created encrypted secrets Gist: " ++ secretsURL))
              (.ok ())
            let encrypted ← encrypt w DONPublicKey (secretsURL ++ "/raw")
            pure (.record secretsURL ("0x" ++ encrypted))
  else do
    let positive ← Run.lift (lengthPositive secrets)
    if positive then
      if !isArray secrets then
        Run.throw (.error
          "Unsupported remote secrets format.  Remote secrets must be an array.")
      else do
        let verified ← verifyOffchainSecrets w secrets
        if verified then do
          let encrypted ← encrypt w DONPublicKey (" ".intercalate (JsValue.joinItems secrets.elements))
          pure (.text ("0x" ++ encrypted))
        else
          Run.throw (.error "Could not verify off-chain secrets.")
    else
      pure (.text "0x")

/-! ## The request script up to the rendezvous (`main`, lines 6-131) -/

/-- The expression `value || fallback` on a variable of `process.env`. -/
def orElse (value : Option String) (fallback : String) : String :=
  match value with
  | none => fallback
  | some s => if s = "" then fallback else s

/-- The key main falls back to at line 8. -/
def defaultQuickNodeApiKey : String := "oKxs-03sij-U_N0iOlrSsZFr29-IqbuF"

/-- The `quickNodeApiKey` of line 8. -/
def quickNodeApiKey (w : World) : String :=
  orElse (w.env "QUICKNODE_API_KEY") defaultQuickNodeApiKey

/-- The provider URL of line 11. -/
def providerUrl (w : World) : String :=
  "https://alien-wild-friday.ethereum-sepolia.discover.quiknode.pro/" ++ quickNodeApiKey w

/-- The `secrets` of line 42: `{ apiKey: process.env.OPENAI_API_KEY }`. -/
def mainSecrets (w : World) : JsValue :=
  .obj [("apiKey", match w.env "OPENAI_API_KEY" with
    | some key => .str key
    | none => .undefined)]

/-- The field `result.encrypted` (`undefined` on a string). -/
def EncryptedSecrets.encryptedField : EncryptedSecrets → Option EncryptedSecrets
  | .record _ encrypted => some (.text encrypted)
  | .text _ => none

/-- The field `result.gistUrl` (`undefined` on a string). -/
def EncryptedSecrets.gistUrlField : EncryptedSecrets → Option String
  | .record gistUrl _ => some gistUrl
  | .text _ => none

/-- The text `"" + encryptedSecrets` of line 78. -/
def shown : Option EncryptedSecrets → String
  | none => "undefined"
  | some (.text value) => value
  | some (.record _ _) => "[object Object]"

/-- What lines 6-78 of `main` leave in its variables (`none` is `undefined`). -/
structure Prepared where
  source : String
  encryptedSecrets : Option EncryptedSecrets
  doGistCleanup : Option Bool
  gistUrl : Option String
  deriving DecidableEq, Repr

/-- What the first part of `main` hands to the rendezvous. -/
structure Submitted where
  requestId : RequestId
  /-- The variable `doGistCleanup`; `none` is `undefined`. -/
  doGistCleanup : Option Bool
  /-- The argument `encryptedSecrets ?? "0x"` of line 111. -/
  encryptedSecrets : EncryptedSecrets
  gistUrl : Option String
  deriving DecidableEq, Repr

/-- Lines 61-77 of `main`: the variables `encryptedSecrets`, `doGistCleanup`
and `gistUrl` (`none` is `undefined`). -/
def prepareSecrets (w : World) (secrets : JsValue) (signerPrivateKey : Option String) :
    Run (Option EncryptedSecrets × Option Bool × Option String) :=
  match secrets with
  | .undefined => pure (some (.text "0x"), none, none)
  | _ => do
    let result ← getEncryptedSecrets w secrets signerPrivateKey
    if isObject secrets then
      pure (result.encryptedField, some true, result.gistUrlField)
    else
      pure (some result, some false, none)

/-- Lines 6-78 of `main` for a given value of the variable `secrets`:
provider, wallet, contract files, request source and encrypted secrets. -/
def mainPrepare (w : World) (secrets : JsValue) : Run Prepared := do
  Run.call (.jsonRpcProvider (providerUrl w)) (.ok ())
  let signerPrivateKey := w.env "DEPLOYER_PRIVATE_KEY"
  Run.call (.newWallet signerPrivateKey) (w.newWallet signerPrivateKey)
  let _ ← Run.call (.readFile "./artifacts/contracts/RestaurantInfo.sol/RestaurantInfo.json")
    (w.readFile "./artifacts/contracts/RestaurantInfo.sol/RestaurantInfo.json")
  let source ← Run.call (.readFile "./scripts/OpenAI-request.js")
    (w.readFile "./scripts/OpenAI-request.js")
  let _ ← Run.call
    (.readFile "./artifacts/contracts/dev/functions/FunctionsOracle.sol/FunctionsOracle.json")
    (w.readFile "./artifacts/contracts/dev/functions/FunctionsOracle.sol/FunctionsOracle.json")
  let (encryptedSecrets, doGistCleanup, gistUrl) ← prepareSecrets w secrets signerPrivateKey
  Run.call (.log ("Encrypted secrets: " ++ shown encryptedSecrets)) (.ok ())
  pure ⟨source, encryptedSecrets, doGistCleanup, gistUrl⟩

/-- Lines 105-131: submit the request, wait for the receipt and read the
request id.  These lines run inside the `async` executor of the promise of
line 91, so an error thrown here rejects the executor's own promise, which
nothing handles, and not the promise `main` awaits. -/
def submitRequest (w : World) (p : Prepared) : Run Submitted := do
  let argument := p.encryptedSecrets.getD (.text "0x")
  Run.call (.addReview p.source argument w.subscriptionId w.gasLimit)
    (w.addReview p.source argument)
  let found ← Run.call (.waitForReceipt 2) w.requestSentId
  match found with
  | none => Run.throw (.typeError "Cannot read properties of undefined (reading args)")
  | some requestId => do
    Run.call (.log ("Request " ++ requestId ++ " initiated")) (.ok ())
    pure ⟨requestId, p.doGistCleanup, argument, p.gistUrl⟩

/-- Lines 6-131 of `main` for a given value of the variable `secrets`, up to
the point where polling starts. -/
def mainSubmit (w : World) (secrets : JsValue) : Run Submitted := do
  let p ← mainPrepare w secrets
  submitRequest w p

/-- Lines 6-131 of `main` as written, with the `secrets` of line 42. -/
def mainStart (w : World) : Run Submitted :=
  mainSubmit w (mainSecrets w)

/-- The session `main` starts at lines 135-178 after a successful submission;
`store` holds what the listeners of lines 81-89 recorded meanwhile. -/
def Submitted.session (sub : Submitted) (store : Store) : Session :=
  Session.start sub.requestId (sub.doGistCleanup.getD false) store

/-! ## The request source (`OpenAI-request.js`) -/

/-- A JavaScript number: a finite value, `NaN`, or an infinity.  (The sign of
zero is not tracked; nothing below depends on it.) -/
inductive JsNumber where
  | finite (q : ℚ)
  | nan
  | posInf
  | negInf
  deriving DecidableEq

/-- The builtin `Math.round`: the nearest integer, halves rounded up; `NaN`
and the infinities are returned unchanged. -/
def mathRound : JsNumber → JsNumber
  | .finite q => .finite (⌊q + 1 / 2⌋ : ℤ)
  | x => x

/-- The builtin `Number.isInteger`. -/
def isInteger : JsNumber → Bool
  | .finite q => decide (((⌊q⌋ : ℤ) : ℚ) = q)
  | _ => false

/-- The text of a number that is not an integer after `Math.round`. -/
def JsNumber.shown : JsNumber → String
  | .nan => "NaN"
  | .posInf => "Infinity"
  | .negInf => "-Infinity"
  | .finite q => toString q

/-- The floating-point operations of line 50, which the JavaScript engine
supplies: `Math.exp` on a number and the product `100 * x`. -/
structure FloatOps where
  exp : JsNumber → JsNumber
  times100 : JsNumber → JsNumber

/-- The call `Math.exp(value)`, where `undefined` converts to `NaN`. -/
def mathExp (fl : FloatOps) : Option JsNumber → JsNumber
  | none => .nan
  | some x => fl.exp x

/-- What the request source returns: the call `Functions.encodeUint256(key_prob)`
of line 67, left to the oracle library. -/
inductive Returned where
  | encodeUint256 (key_prob : JsNumber)
  deriving DecidableEq

/-- The variable `key_prob` of line 50, from the computed value
`100 * Math.exp(d['"'])`. -/
def key_prob (computed : JsNumber) : JsNumber :=
  mathRound computed

/-- Lines 50-67: round the computed value, throw when the rounded value is
not an integer, else return its encoding. -/
def returnScore (computed : JsNumber) : Except JsError Returned :=
  if !isInteger (key_prob computed) then
    .error (.error ("Not a integer " ++ (key_prob computed).shown))
  else
    .ok (.encodeUint256 (key_prob computed))

/-- One entry of `choices`: `logprobs.top_logprobs`, or nothing when
`logprobs` is `null`. -/
structure Choice where
  topLogprobs : Option (List (List (String × JsNumber)))

/-- The value `Functions.makeHttpRequest` resolves to. -/
structure HttpResponse where
  /-- The field `error` is truthy. -/
  error : Bool
  /-- The field `data.choices`, or nothing when `data` is `null` or `undefined`. -/
  data : Option (List Choice)

/-- The script `OpenAI-request.js`, given `args`, the value of `secrets.apiKey`
(`none` is `undefined`) and the API's answer. -/
def requestSource (fl : FloatOps) (respond : HttpResponse) (args : List String)
    (apiKey : Option String) : Run Returned := do
  let text := args.head?
  let url := "https://api.openai.com/v1/completions"
  Run.call (.log ("HTTP Post Request to " ++ url)) (.ok ())
  match apiKey with
  | none => Run.throw (.error "OPEN_AI_APIKEY environment variable not set for Open AI API")
  | some key =>
    if key = "" then
      Run.throw (.error "OPEN_AI_APIKEY environment variable not set for Open AI API")
    else do
      let openAIResponse ← Run.call
        (.apiPost url ("Bearer " ++ key) (text.getD "undefined" ++ "<|disc_score|>"))
        (.ok respond)
      if openAIResponse.error then do
        Run.call (.log "openAIResponse.error") (.ok ())
        Run.throw (.error "Request failed")
      else
        match openAIResponse.data with
        | none => Run.throw (.error "No data returned by API")
        | some [] => Run.throw (.typeError "Cannot read properties of undefined (reading logprobs)")
        | some (choices :: _) =>
          match choices.topLogprobs with
          | none =>
            Run.throw (.typeError "Cannot read properties of null (reading top_logprobs)")
          | some [] => Run.throw (.typeError "Cannot read properties of undefined")
          | some (d :: _) =>
            Run.lift (returnScore (fl.times100 (mathExp fl (d.lookup "\""))))

/-! ## The subscription script (`functions-sub.js`) -/

/-- The answers of the outside world to the subscription script, and the
constants `LINK_AMOUNT`, `CONSUMER_ADDRESS`, `SUBSCRIPTION_ID` and
`FUND_ON_SUBSCRIPTION` of `./constants`, which is not among the sources. -/
structure SubscriptionWorld where
  /-- The result of `ethers.utils.parseUnits(LINK_AMOUNT)`: the amount in
  Juels, or the error for a malformed constant. -/
  juelsAmount : Except JsError Int
  consumer : String
  /-- The constant `SUBSCRIPTION_ID`, a `uint64`. -/
  subscriptionId : Nat
  /-- The constant `FUND_ON_SUBSCRIPTION` is truthy. -/
  fundOnSubscription : Bool
  getContractFactory : String → Except JsError Unit
  /-- The addresses of `ethers.getSigners()`. -/
  getSigners : Except JsError (List String)
  balanceOf : String → Except JsError Int
  /-- The outcome of sending `linkToken.transferAndCall`. -/
  transferAndCall : Except JsError Unit
  /-- The outcome of `fundTx.wait(1)`. -/
  fundWait : Except JsError Unit
  /-- The outcome of sending `registry.addConsumer`. -/
  addConsumer : Except JsError Unit
  /-- The outcome of `addTx.wait(1)`. -/
  addWait : Except JsError Unit

/-- The address `functionsBillingRegistryProxy` of line 18. -/
def functionsBillingRegistryProxy : String := "0x3c79f56407DCB9dc9b852D139a317246f43750Cc"

/-- The function `main` of `functions-sub.js` (lines 3-61). -/
def subscriptionMain (w : SubscriptionWorld) : Run Unit := do
  Run.call (.getContractFactory
      "contracts/dev/functions/FunctionsBillingRegistry.sol:FunctionsBillingRegistry")
    (w.getContractFactory
      "contracts/dev/functions/FunctionsBillingRegistry.sol:FunctionsBillingRegistry")
  let juelsAmount ← Run.lift w.juelsAmount
  Run.call (.getContractFactory "LinkToken") (w.getContractFactory "LinkToken")
  let accounts ← Run.call .getSigners w.getSigners
  match accounts.head? with
  | none => Run.throw (.typeError "Cannot read properties of undefined (reading address)")
  | some signer => do
    let balance ← Run.call (.balanceOf signer) (w.balanceOf signer)
    if juelsAmount > balance then
      Run.throw (.error "Insufficent LINK balance")
    else do
      if w.fundOnSubscription then do
        Run.call (.log ("Funding with " ++ toString juelsAmount ++
          " Juels (1 LINK = 10^18 Juels)")) (.ok ())
        Run.call (.transferAndCall functionsBillingRegistryProxy juelsAmount w.subscriptionId)
          w.transferAndCall
        Run.call (.waitForReceipt 1) w.fundWait
        Run.call (.log ("Subscription " ++ toString w.subscriptionId ++ " funded with " ++
          toString juelsAmount ++ " Juels (1 LINK = 10^18 Juels)")) (.ok ())
      else
        pure ()
      Run.call (.log ("Adding consumer contract address " ++ w.consumer ++
        " to subscription " ++ toString w.subscriptionId)) (.ok ())
      Run.call (.addConsumer w.subscriptionId w.consumer) w.addConsumer
      Run.call (.waitForReceipt 1) w.addWait
      Run.call (.log ("Authorized consumer contract: " ++ w.consumer)) (.ok ())

/-- A subscription world in which the signer `"0xS1"` holds `balance` Juels,
for evaluating the script. -/
def SubscriptionWorld.demo (juelsAmount balance : Int) (fund : Bool)
    (transferAndCall : Except JsError Unit) : SubscriptionWorld where
  juelsAmount := .ok juelsAmount
  consumer := "0xC0"
  subscriptionId := 7
  fundOnSubscription := fund
  getContractFactory := fun _ => .ok ()
  getSigners := .ok ["0xS1"]
  balanceOf := fun _ => .ok balance
  transferAndCall := transferAndCall
  fundWait := .ok ()
  addConsumer := .ok ()
  addWait := .ok ()

/-! ## Vocabulary of the statements -/

/-- The call sends the funding transfer or the `addConsumer` transaction. -/
def Effect.isSubscriptionWrite : Effect → Bool
  | .transferAndCall _ _ _ => true
  | .addConsumer _ _ => true
  | _ => false

/-- Every call the run made satisfies `allowed`. -/
def Run.Within {α : Type} (allowed : Effect → Bool) (r : Run α) : Prop :=
  ∀ eff ∈ r.trace, allowed eff = true

/-- The body has a truthy value under the key: the test `!secrets[key]` of
lines 269-270 fails.  (On a `null` body the read throws, and there is no
value.) -/
def hasValueAt (secrets : JsValue) (key : String) : Bool :=
  match secrets.get key with
  | .ok v => v.truthy
  | .error _ => false

/-- The body is an object with an own property named by the key, whatever its
value. -/
def hasEntryAt (secrets : JsValue) (key : String) : Bool :=
  match secrets with
  | .obj props => (props.lookup key).isSome
  | _ => false

/-- The node address is covered by the body: a truthy value under its
lower-cased form or under the default key `"0x0"`. -/
def covers (secrets : JsValue) (nodeAddress : Address) : Bool :=
  hasValueAt secrets nodeAddress.toLowerCase || hasValueAt secrets "0x0"

/-- The text of the error thrown at line 271. -/
def missingNodeMessage (nodeAddress : Address) : String :=
  "No secrets specified for node " ++ nodeAddress.toLowerCase ++ " and " ++
    "no default secrets found."

/-- The call goes to the gist API. -/
def Effect.isGithub : Effect → Bool
  | .githubGetUser _ => true
  | .githubPostGist _ _ _ => true
  | _ => false

/-- The call signs or encrypts. -/
def Effect.isCrypto : Effect → Bool
  | .sign _ _ => true
  | .encryptWithPublicKey _ _ => true
  | _ => false

/-- The call posts a gist. -/
def Effect.isUpload : Effect → Bool
  | .githubPostGist _ _ _ => true
  | _ => false

/-- The call submits the request transaction. -/
def Effect.isSubmission : Effect → Bool
  | .addReview _ _ _ _ => true
  | .waitForReceipt _ => true
  | _ => false

/-- The run threw, and every call it made before satisfies `allowed`. -/
def Run.FailsWithin {α : Type} (allowed : Effect → Bool) (r : Run α) : Prop :=
  (∃ e, r.result = .error e) ∧ ∀ eff ∈ r.trace, allowed eff = true

/-- Everything `main` needs besides the RPC endpoint key and the scored-text
API key is in place: the deployer key and the gist token are set and not
empty, the wallet accepts the key, the three files are read, the token passes
the scope check, the gist is created at `gistUrl`, and the request is accepted
and mined with request id `id`. -/
structure World.Cooperates (w : World) (key token source gistUrl : String)
    (id : RequestId) : Prop where
  deployerKey : w.env "DEPLOYER_PRIVATE_KEY" = some key
  keyNotEmpty : key ≠ ""
  gistToken : w.env "GITHUB_API_TOKEN" = some token
  tokenNotEmpty : token ≠ ""
  wallet : w.newWallet (some key) = .ok ()
  consumerAbi : ∃ text,
    w.readFile "./artifacts/contracts/RestaurantInfo.sol/RestaurantInfo.json" = .ok text
  requestSource : w.readFile "./scripts/OpenAI-request.js" = .ok source
  oracleAbi : ∃ text,
    w.readFile "./artifacts/contracts/dev/functions/FunctionsOracle.sol/FunctionsOracle.json" =
      .ok text
  scope : (checkTokenGistScope w token).result = .ok true
  posted : ∀ fileName content, w.githubPostGist ("token " ++ token) fileName content = some gistUrl
  accepted : ∀ encryptedSecrets, w.addReview source encryptedSecrets = .ok ()
  receipt : w.requestSentId = .ok (some id)

/-- A world in which every call succeeds, for evaluating the scripts: the
variables of `env` are the ones set, the crypto library is replaced by
tagging, every secrets URL serves `body`, and the receipt names request
`"0x01"`. -/
def World.demo (env : String → Option String) (body : JsValue) (nodes : List Address) : World where
  env := env
  gasLimit := 300000
  subscriptionId := 1
  newWallet := fun _ => .ok ()
  readFile := fun path => .ok ("contents of " ++ path)
  donPublicKey := "0xd0"
  nodeAddresses := nodes
  keccak256 := fun m => "keccak(" ++ m ++ ")"
  sign := fun k h => "sig(" ++ k ++ "," ++ h ++ ")"
  encryptWithPublicKey := fun k m => "enc(" ++ k ++ "," ++ m ++ ")"
  hexToBase64 := fun t => "b64(" ++ t ++ ")"
  httpGet := fun _ => .ok body
  githubGetUser := fun _ => .ok ⟨200, "OK", some "gist"⟩
  githubPostGist := fun _ _ _ => some "https://gist.github.com/u/abc123"
  now := 0
  addReview := fun _ _ => .ok ()
  requestSentId := .ok (some "0x01")

/-- The environment with exactly the listed variables set. -/
def envOf (vars : List (String × String)) : String → Option String :=
  fun name => vars.lookup name

/-! ## Theorems: the rendezvous -/

/-- After `process.exit` no callback changes anything. -/
theorem step_of_exited (rt : Runtime) (s : Session) (t : Task) (c : Nat)
    (h : s.exitCode = some c) : step rt s t = s := by
  simp [step, h]

/-- After `process.exit` no list of callbacks changes anything. -/
theorem run_of_exited (rt : Runtime) (tasks : List Task) (s : Session) (c : Nat)
    (h : s.exitCode = some c) : run rt s tasks = s := by
  induction tasks with
  | nil => rfl
  | cons t ts ih =>
    show run rt (step rt s t) ts = s
    rw [step_of_exited rt s t c h]
    exact ih

theorem run_append (rt : Runtime) (s : Session) (xs ys : List Task) :
    run rt s (xs ++ ys) = run rt (run rt s xs) ys := by
  simp [run, List.foldl_append]

theorem start_consistent (id : RequestId) (g : Bool) (store : Store) :
    (Session.start id g store).Consistent :=
  ⟨fun _ => ⟨rfl, rfl, rfl, rfl, rfl, rfl⟩, by simp [Session.start], by simp [Session.start]⟩

/-- The first call of `cleanup` calls `resolve` once, whatever `doGistCleanup` is. -/
theorem cleanup_first (s : Session) (hc : s.cleanupInProgress = false) :
    cleanup s = resolve { s with cleanupInProgress := s.doGistCleanup } := by
  cases hg : s.doGistCleanup <;> simp [cleanup, hg, hc]
  cases s; simp_all

/-- A tick of a running session whose store has a fulfillment entry. -/
theorem tick_response (rt : Runtime) (s : Session) (response err : Bytes)
    (hx : s.exitCode = none) (hpoll : s.polling = true) (hp : s.promise = .pending)
    (hc : s.cleanupInProgress = false)
    (hs : s.store s.requestId = some (.aiReviewResponse response err)) :
    let s' := step rt s .tick
    s'.promise = .fulfilled ∧ s'.resolveCalls = s.resolveCalls + 1 ∧
      s'.rejectCalls = s.rejectCalls ∧ s'.polling = false ∧ s'.exitCode = some 0 ∧
      s'.checkStoreRuns = s.checkStoreRuns + 1 ∧ s'.thrown = s.thrown := by
  simp only [step, hx, hpoll, if_true, checkStore, hs]
  rw [cleanup_first _ (by split <;> split <;> simp [Session.print, hc])]
  split <;> split <;> simp [settle, resolve, Session.print, hx, hp]

/-- A tick of a running session whose store has nothing for the awaited id. -/
theorem tick_absent (rt : Runtime) (s : Session)
    (hx : s.exitCode = none) (hpoll : s.polling = true) (hp : s.promise = .pending)
    (hs : s.store s.requestId = none) :
    step rt s .tick = { s with checkStoreRuns := s.checkStoreRuns + 1 } := by
  simp [step, hx, hpoll, checkStore, hs, settle, hp]

/-- A tick of a running session whose store has one of the two error entries:
`checkStore` throws, and neither `clearInterval` nor `cleanup` is reached. -/
theorem tick_error_entry (rt : Runtime) (s : Session) (entry : StoreEntry)
    (hx : s.exitCode = none) (hpoll : s.polling = true)
    (hs : s.store s.requestId = some entry)
    (hk : ∀ response err, entry ≠ .aiReviewResponse response err) :
    let s' := step rt s .tick
    s'.promise = s.promise ∧ s'.resolveCalls = s.resolveCalls ∧
      s'.rejectCalls = s.rejectCalls ∧ s'.polling = true ∧
      s'.cleanupInProgress = s.cleanupInProgress ∧ s'.timeoutArmed = s.timeoutArmed ∧
      s'.store = s.store ∧ s'.requestId = s.requestId ∧
      s'.checkStoreRuns = s.checkStoreRuns + 1 ∧
      s'.thrown = s.thrown ++ [.referenceError "msg"] ∧
      s'.exitCode = (if rt.exitOnUnhandledRejection then some 1 else none) := by
  cases entry with
  | aiReviewResponse response err => exact absurd rfl (hk response err)
  | userCallbackError m =>
    cases hrt : rt.exitOnUnhandledRejection <;>
      simp [step, hx, hpoll, checkStore, hs, unhandledRejection, Session.print, hrt]
  | userCallbackRawError m =>
    cases hrt : rt.exitOnUnhandledRejection <;>
      simp [step, hx, hpoll, checkStore, hs, unhandledRejection, Session.print, hrt]

/-- The timer firing in a running session with a pending promise. -/
theorem timeout_pending (rt : Runtime) (s : Session)
    (hx : s.exitCode = none) (harm : s.timeoutArmed = true) (hp : s.promise = .pending) :
    let s' := step rt s .timeout
    s'.promise = .rejected timeoutMessage ∧ s'.rejectCalls = s.rejectCalls + 1 ∧
      s'.resolveCalls = s.resolveCalls ∧ s'.exitCode = some 1 ∧
      s'.checkStoreRuns = s.checkStoreRuns := by
  simp [step, hx, harm, reject, settle, hp, Session.print]

/-- Every callback keeps the state consistent. -/
theorem step_consistent (rt : Runtime) (s : Session) (t : Task) (h : s.Consistent) :
    (step rt s t).Consistent := by
  cases hx : s.exitCode with
  | some c => rw [step_of_exited rt s t c hx]; exact h
  | none =>
    obtain ⟨hp, hr, hj, hc, hpoll, harm⟩ := h.running hx
    cases t with
    | event e =>
      constructor <;> simp_all [step]
    | tick =>
      cases hs : s.store s.requestId with
      | none =>
        rw [tick_absent rt s hx hpoll hp hs]
        constructor <;> simp_all
      | some entry =>
        by_cases hk : ∀ response err, entry ≠ .aiReviewResponse response err
        · obtain ⟨h1, h2, h3, h4, h5, h6, -, -, -, -, h7⟩ :=
            tick_error_entry rt s entry hx hpoll hs hk
          constructor
          · intro _
            exact ⟨h1.trans hp, h2.trans hr, h3.trans hj, h5.trans hc, h4, h6.trans harm⟩
          · omega
          · intro hf; rw [h1, hp] at hf; cases hf
        · push_neg at hk
          obtain ⟨response, err, rfl⟩ := hk
          obtain ⟨h1, h2, h3, -, h5, -, -⟩ := tick_response rt s response err hx hpoll hp hc hs
          constructor
          · intro hn; rw [h5] at hn; cases hn
          · omega
          · intro _; exact ⟨by omega, h5⟩
    | timeout =>
      obtain ⟨h1, h2, h3, h4, -⟩ := timeout_pending rt s hx harm hp
      constructor
      · intro hn; rw [h4] at hn; cases hn
      · omega
      · intro hf; rw [h1] at hf; cases hf

/-- Every state of a run from a consistent state is consistent. -/
theorem run_consistent (rt : Runtime) (tasks : List Task) (s : Session) (h : s.Consistent) :
    (run rt s tasks).Consistent := by
  induction tasks generalizing s with
  | nil => exact h
  | cons t ts ih => exact ih (step rt s t) (step_consistent rt s t h)

/-- While no event keyed by `id` is delivered and the timer has not fired, a
running session that awaits `id` and has no entry for it stays as it is. -/
theorem run_unmatched (rt : Runtime) (id : RequestId) (tasks : List Task) (s : Session)
    (hc : s.Consistent) (hx : s.exitCode = none) (hid : s.requestId = id)
    (hs : s.store id = none)
    (ht : ∀ t ∈ tasks, t ≠ .timeout ∧ t.recordsFor id = false) :
    (run rt s tasks).exitCode = none ∧ (run rt s tasks).requestId = id ∧
      (run rt s tasks).store id = none := by
  induction tasks generalizing s with
  | nil => exact ⟨hx, hid, hs⟩
  | cons t ts ih =>
    have hts : ∀ u ∈ ts, u ≠ .timeout ∧ u.recordsFor id = false :=
      fun u hu => ht u (List.mem_cons_of_mem t hu)
    obtain ⟨hnt, hrec⟩ := ht t (List.mem_cons_self t ts)
    obtain ⟨hp, -, -, -, hpoll, -⟩ := hc.running hx
    have hstep : (step rt s t).exitCode = none ∧ (step rt s t).requestId = id ∧
        (step rt s t).store id = none := by
      cases t with
      | timeout => exact absurd rfl hnt
      | tick =>
        rw [tick_absent rt s hx hpoll hp (by rw [hid]; exact hs)]
        exact ⟨hx, hid, hs⟩
      | event e =>
        have hne : ¬ id = e.eventRequestId := by
          intro h
          simp [Task.recordsFor, h] at hrec
        simp [step, hx, hid, deliver, Store.set, hne, hs]
    exact ih (step rt s t) (step_consistent rt s t hc) hstep.1 hstep.2.1 hstep.2.2 hts

/-- C1, the code at the failing input: when `store[requestId]` holds a
`UserCallbackError` or a `UserCallbackRawError` entry, the polling tick runs
`checkStore`, which throws a `ReferenceError` for `msg`; the promise stays
pending, `resolve` is not called and the interval is not cleared, so the next
tick (when the runtime keeps the process alive) runs `checkStore` again. -/
theorem tick_on_error_entry_throws (id : RequestId) (g : Bool) (msg : String) (raw : Bool) :
    let entry := if raw then StoreEntry.userCallbackRawError msg else .userCallbackError msg
    let s := step ⟨false⟩ (Session.start id g (Store.empty.set id entry)) .tick
    s.thrown = [.referenceError "msg"] ∧ s.promise = .pending ∧ s.resolveCalls = 0 ∧
      s.polling = true ∧ s.checkStoreRuns = 1 ∧
      (step ⟨false⟩ s .tick).checkStoreRuns = 2 ∧ (step ⟨false⟩ s .tick).resolveCalls = 0 := by
  cases raw <;>
    simp [step, Session.start, Store.set, checkStore, unhandledRejection, Session.print]

/-- C2: when no event keyed by the awaited id is delivered before the timer
fires (and the store had no entry for it when polling started), the timer
rejects the promise with the timed-out message, `main()` fails and the
process exits with code 1; whatever callbacks are due afterwards, `checkStore`
is not run again. -/
theorem timeout_without_event (rt : Runtime) (id : RequestId) (g : Bool) (store0 : Store)
    (pre post : List Task) (h0 : store0 id = none)
    (hpre : ∀ t ∈ pre, t ≠ .timeout ∧ t.recordsFor id = false) :
    (step rt (run rt (Session.start id g store0) pre) .timeout).promise
        = .rejected timeoutMessage ∧
      (step rt (run rt (Session.start id g store0) pre) .timeout).resolveCalls = 0 ∧
      (step rt (run rt (Session.start id g store0) pre) .timeout).rejectCalls = 1 ∧
      (step rt (run rt (Session.start id g store0) pre) .timeout).exitCode = some 1 ∧
      (run rt (step rt (run rt (Session.start id g store0) pre) .timeout) post).checkStoreRuns
        = (run rt (Session.start id g store0) pre).checkStoreRuns := by
  have hc := run_consistent rt pre _ (start_consistent id g store0)
  obtain ⟨hx, -, -⟩ := run_unmatched rt id pre _ (start_consistent id g store0) rfl rfl h0 hpre
  obtain ⟨hp, hr, hj, -, -, harm⟩ := hc.running hx
  obtain ⟨h1, h2, h3, h4, h5⟩ := timeout_pending rt _ hx harm hp
  refine ⟨h1, h3.trans hr, by rw [h2, hj], h4, ?_⟩
  rw [run_of_exited rt post _ 1 h4, h5]

/-- C3: once a polling tick has resolved the promise, `main()` returns and the
process exits with code 0, so in every continuation of the run the timer
callback does not execute: `reject` is never called and the promise stays
fulfilled. -/
theorem resolved_never_rejects (rt : Runtime) (id : RequestId) (g : Bool) (store0 : Store)
    (pre post : List Task)
    (h : (run rt (Session.start id g store0) pre).promise = .fulfilled) :
    (run rt (Session.start id g store0) (pre ++ post)).rejectCalls = 0 ∧
      (run rt (Session.start id g store0) (pre ++ post)).promise = .fulfilled ∧
      (run rt (Session.start id g store0) (pre ++ post)).exitCode = some 0 := by
  have hc := run_consistent rt pre _ (start_consistent id g store0)
  obtain ⟨hj, hx⟩ := hc.fulfilled h
  rw [run_append, run_of_exited rt post _ 0 hx]
  exact ⟨hj, h, hx⟩

/-- C4: in every run, whatever the order of event deliveries, ticks and the
timer, and whether or not gist cleanup is enabled, `resolve` and `reject` are
called at most once in total. -/
theorem settled_at_most_once (rt : Runtime) (id : RequestId) (g : Bool) (store0 : Store)
    (tasks : List Task) :
    (run rt (Session.start id g store0) tasks).resolveCalls +
      (run rt (Session.start id g store0) tasks).rejectCalls ≤ 1 :=
  (run_consistent rt tasks _ (start_consistent id g store0)).atMostOnce

/-- C5: when the store has no entry for the awaited id as polling starts, no
sequence of ticks and of deliveries of events keyed by other ids resolves the
rendezvous: the promise is still pending, `resolve` and `reject` were not
called, and the process is still running and polling. -/
theorem pending_without_matching_event (rt : Runtime) (id : RequestId) (g : Bool)
    (store0 : Store) (tasks : List Task) (h0 : store0 id = none)
    (ht : ∀ t ∈ tasks, t ≠ .timeout ∧ t.recordsFor id = false) :
    (run rt (Session.start id g store0) tasks).promise = .pending ∧
      (run rt (Session.start id g store0) tasks).resolveCalls = 0 ∧
      (run rt (Session.start id g store0) tasks).rejectCalls = 0 ∧
      (run rt (Session.start id g store0) tasks).exitCode = none ∧
      (run rt (Session.start id g store0) tasks).polling = true := by
  have hc := run_consistent rt tasks _ (start_consistent id g store0)
  obtain ⟨hx, -, -⟩ := run_unmatched rt id tasks _ (start_consistent id g store0) rfl rfl h0 ht
  obtain ⟨hp, hr, hj, -, hpoll, -⟩ := hc.running hx
  exact ⟨hp, hr, hj, hx, hpoll⟩

/-! ## Theorems: secrets -/

theorem Run.bind_eq {α β : Type} (r : Run α) (f : α → Run β) : r >>= f = r.andThen f := rfl
theorem Run.pure_eq {α : Type} (a : α) : (pure a : Run α) = Run.ret a := rfl

theorem Run.andThen_ok {α β : Type} (t : List Effect) (a : α) (f : α → Run β) :
    Run.andThen ⟨t, .ok a⟩ f = ⟨t ++ (f a).trace, (f a).result⟩ := rfl

theorem Run.andThen_error {α β : Type} (t : List Effect) (e : JsError) (f : α → Run β) :
    Run.andThen ⟨t, .error e⟩ f = ⟨t, .error e⟩ := rfl

/-- When every URL is served, the first loop collects the bodies in order. -/
theorem fetchSecrets_ok (w : World) (body : String → JsValue) (urls : List JsValue)
    (h : ∀ u ∈ urls, w.httpGet u.toStr = .ok (body u.toStr)) :
    fetchSecrets w urls =
      ⟨urls.map fun u => .httpGet u.toStr, .ok (urls.map fun u => (u, body u.toStr))⟩ := by
  induction urls with
  | nil => rfl
  | cons u us ih =>
    have hu := h u (List.mem_cons_self u us)
    have hus := ih fun v hv => h v (List.mem_cons_of_mem u hv)
    simp [fetchSecrets, Run.bind_eq, Run.pure_eq, Run.call, hu, hus, Run.andThen, Run.ret]

/-- The inner loop succeeds exactly when every node address is covered. -/
theorem checkNodeAddresses_ok_iff (secrets : JsValue) (nodes : List Address) :
    checkNodeAddresses secrets nodes = .ok () ↔ ∀ a ∈ nodes, covers secrets a = true := by
  induction nodes with
  | nil => simp [checkNodeAddresses]
  | cons a as ih =>
    simp only [List.mem_cons, forall_eq_or_imp, ← ih]
    cases secrets with
    | obj props =>
      simp only [checkNodeAddresses, covers, hasValueAt, JsValue.get, bind, Except.bind]
      generalize JsValue.truthy ((List.lookup a.toLowerCase props).getD .undefined) = b1
      generalize JsValue.truthy ((List.lookup "0x0" props).getD .undefined) = b2
      cases b1 <;> cases b2 <;> simp
    | _ =>
      simp [checkNodeAddresses, covers, hasValueAt, JsValue.get, JsValue.truthy, bind,
        Except.bind]

/-- When the inner loop throws, it throws the missing-node error for an
address that is not covered, or the engine's error for reading a property of
`null` or `undefined`. -/
theorem checkNodeAddresses_error (secrets : JsValue) (nodes : List Address) (e : JsError)
    (h : checkNodeAddresses secrets nodes = .error e) :
    (∃ a ∈ nodes, covers secrets a = false ∧ e = .error (missingNodeMessage a)) ∨
      (∃ d, e = .typeError d) := by
  induction nodes with
  | nil => simp [checkNodeAddresses] at h
  | cons a as ih =>
    cases secrets with
    | obj props =>
      simp only [checkNodeAddresses, JsValue.get, bind, Except.bind] at h
      cases h1 : JsValue.truthy ((List.lookup a.toLowerCase props).getD .undefined) <;>
        cases h2 : JsValue.truthy ((List.lookup "0x0" props).getD .undefined) <;>
        simp [h1, h2] at h
      · left
        refine ⟨a, List.mem_cons_self a as, ?_, ?_⟩
        · simp [covers, hasValueAt, JsValue.get, h1, h2]
        · rw [← h]; rfl
      all_goals
        rcases ih h with ⟨b, hb, hc, he⟩ | hd
        · exact Or.inl ⟨b, List.mem_cons_of_mem a hb, hc, he⟩
        · exact Or.inr hd
    | undefined =>
      simp [checkNodeAddresses, JsValue.get, bind, Except.bind] at h
      exact Or.inr ⟨_, h.symm⟩
    | null =>
      simp [checkNodeAddresses, JsValue.get, bind, Except.bind] at h
      exact Or.inr ⟨_, h.symm⟩
    | _ =>
      simp [checkNodeAddresses, JsValue.get, JsValue.truthy, bind, Except.bind] at h
      left
      refine ⟨a, List.mem_cons_self a as, ?_, ?_⟩
      · simp [covers, hasValueAt, JsValue.get, JsValue.truthy]
      · rw [← h]; rfl

/-- The second loop succeeds exactly when every body serialises like the first
and covers every node address. -/
theorem checkResponses_ok_iff (first : JsValue × JsValue) (nodes : List Address)
    (rs : List (JsValue × JsValue)) :
    checkResponses first nodes rs = .ok () ↔
      ∀ p ∈ rs, JsValue.stringify p.2 = JsValue.stringify first.2 ∧
        ∀ a ∈ nodes, covers p.2 a = true := by
  induction rs with
  | nil => simp [checkResponses]
  | cons p ps ih =>
    obtain ⟨url, secrets⟩ := p
    have hcov := checkNodeAddresses_ok_iff secrets nodes
    simp only [List.forall_mem_cons]
    by_cases hs : JsValue.stringify secrets = JsValue.stringify first.2
    · cases hn : checkNodeAddresses secrets nodes with
      | error e2 =>
        have hno : ¬ ∀ a ∈ nodes, covers secrets a = true := by
          rw [← hcov, hn]; simp
        simp [checkResponses, hs, hn, bind, Except.bind, hno]
      | ok u =>
        have hyes : ∀ a ∈ nodes, covers secrets a = true := by
          rw [← hcov, hn]
        simp only [checkResponses, hs, hn, bind, Except.bind, ne_eq, not_true_eq_false,
          if_false, true_and, ih]
        exact ⟨fun h => ⟨hyes, h⟩, fun h => h.2⟩
    · simp [checkResponses, hs]

/-- When the second loop throws, the error is the mismatch error for a URL
whose body serialises differently from the first, the missing-node error for
an address some body does not cover, or the engine's error for a `null` body. -/
theorem checkResponses_error (first : JsValue × JsValue) (nodes : List Address)
    (rs : List (JsValue × JsValue)) (e : JsError)
    (h : checkResponses first nodes rs = .error e) :
    (∃ p ∈ rs, JsValue.stringify p.2 ≠ JsValue.stringify first.2 ∧
        e = .error (mismatchMessage p.1 first.1)) ∨
      (∃ p ∈ rs, ∃ a ∈ nodes, covers p.2 a = false ∧ e = .error (missingNodeMessage a)) ∨
      (∃ d, e = .typeError d) := by
  induction rs with
  | nil => simp [checkResponses] at h
  | cons p ps ih =>
    obtain ⟨url, secrets⟩ := p
    by_cases hs : JsValue.stringify secrets = JsValue.stringify first.2
    · cases hn : checkNodeAddresses secrets nodes with
      | error e2 =>
        simp [checkResponses, hs, hn, bind, Except.bind] at h
        subst h
        rcases checkNodeAddresses_error secrets nodes e2 hn with ⟨a, ha, hc, he⟩ | hd
        · exact Or.inr (Or.inl ⟨(url, secrets), List.mem_cons_self _ _, a, ha, hc, he⟩)
        · exact Or.inr (Or.inr hd)
      | ok u =>
        simp [checkResponses, hs, hn, bind, Except.bind] at h
        rcases ih h with ⟨p, hp, h1, h2⟩ | ⟨p, hp, a, ha, h1, h2⟩ | hd
        · exact Or.inl ⟨p, List.mem_cons_of_mem _ hp, h1, h2⟩
        · exact Or.inr (Or.inl ⟨p, List.mem_cons_of_mem _ hp, a, ha, h1, h2⟩)
        · exact Or.inr (Or.inr hd)
    · simp [checkResponses, hs] at h
      exact Or.inl ⟨(url, secrets), List.mem_cons_self _ _, hs, h.symm⟩

/-- With every URL served, `verifyOffchainSecrets` ends as the second loop does. -/
theorem verifyOffchainSecrets_result (w : World) (body : String → JsValue)
    (first : JsValue) (rest : List JsValue)
    (hfetch : ∀ u ∈ first :: rest, w.httpGet u.toStr = .ok (body u.toStr)) :
    (verifyOffchainSecrets w (.arr (first :: rest))).result =
      (checkResponses (first, body first.toStr) w.nodeAddresses
        ((first :: rest).map fun u => (u, body u.toStr))).map fun _ => true := by
  simp only [verifyOffchainSecrets, JsValue.elements, Run.bind_eq, Run.call, Run.andThen_ok,
    fetchSecrets_ok w body (first :: rest) hfetch, List.map_cons]
  cases hc : checkResponses (first, body first.toStr) w.nodeAddresses
      ((first, body first.toStr) :: rest.map fun u => (u, body u.toStr)) <;>
    simp [Run.andThen, Run.lift, hc, Run.pure_eq, Run.ret, Except.map]


theorem Run.head_bind {α β : Type} (r : Run α) (f : α → Run β) (e : Effect)
    (h : r.trace.head? = some e) : (r >>= f).trace.head? = some e := by
  obtain ⟨t, res⟩ := r
  cases t with
  | nil => simp at h
  | cons x xs =>
    cases res <;> simpa [Run.bind_eq, Run.andThen] using h

theorem Run.FailsWithin.bind_left {α β : Type} {allowed : Effect → Bool} {r : Run α}
    (f : α → Run β) (h : r.FailsWithin allowed) : (r >>= f).FailsWithin allowed := by
  obtain ⟨⟨e, he⟩, ht⟩ := h
  obtain ⟨t, res⟩ := r
  simp only at he ht
  subst he
  exact ⟨⟨e, rfl⟩, ht⟩

theorem Run.FailsWithin.bind_right {α β : Type} {allowed : Effect → Bool} {r : Run α}
    (f : α → Run β) (ht : ∀ eff ∈ r.trace, allowed eff = true)
    (h : ∀ a, r.result = .ok a → (f a).FailsWithin allowed) :
    (r >>= f).FailsWithin allowed := by
  obtain ⟨t, res⟩ := r
  cases res with
  | error e => exact ⟨⟨e, rfl⟩, ht⟩
  | ok a =>
    obtain ⟨⟨e, he⟩, hf⟩ := h a rfl
    refine ⟨⟨e, he⟩, ?_⟩
    intro eff heff
    rcases List.mem_append.mp heff with h1 | h2
    · exact ht eff h1
    · exact hf eff h2

theorem Run.FailsWithin.call {α β : Type} {allowed : Effect → Bool} (e : Effect)
    (answer : Except JsError α) (f : α → Run β) (he : allowed e = true)
    (h : ∀ a, answer = .ok a → (f a).FailsWithin allowed) :
    (Run.call e answer >>= f).FailsWithin allowed :=
  Run.FailsWithin.bind_right f (by simpa [Run.call] using he) h

/-- Inline secrets without a signer key: `getEncryptedSecrets` throws right
after fetching the public key. -/
theorem getEncryptedSecrets_no_key (w : World) (props : List (String × JsValue))
    (key : Option String) (h : falsy key = true) :
    getEncryptedSecrets w (.obj props) key =
      ⟨[.getDONPublicKey],
        .error (.error "signerPrivateKey is required to encrypt inline secrets")⟩ := by
  cases key with
  | none => rfl
  | some k =>
    have hk : k = "" := by simpa [falsy] using h
    subst hk
    rfl

/-- Inline secrets with a signer key but without a gist token:
`getEncryptedSecrets` throws after encrypting and before any call to GitHub. -/
theorem getEncryptedSecrets_no_token (w : World) (props : List (String × JsValue))
    (key : String) (hkey : key ≠ "") (h : falsy (w.env "GITHUB_API_TOKEN") = true) :
    getEncryptedSecrets w (.obj props) (some key) =
      ⟨[.getDONPublicKey,
          .sign key (w.keccak256 ((JsValue.stringify (.obj props)).getD "undefined")),
          .encryptWithPublicKey (w.donPublicKey.drop 2)
            ((JsValue.stringify (.obj [("message",
                .str ((JsValue.stringify (.obj props)).getD "undefined")),
              ("signature", .str (w.sign key
                (w.keccak256 ((JsValue.stringify (.obj props)).getD "undefined"))))])).getD
              "undefined")],
        .error (.error "GITHUB_API_TOKEN environment variable not set")⟩ := by
  cases ht : w.env "GITHUB_API_TOKEN" with
  | none =>
    simp [getEncryptedSecrets, isObject, JsValue.truthy, hkey, ht, Run.bind_eq, Run.call,
      Run.andThen, encryptWithSignature, encrypt, Run.throw]
  | some t =>
    have htt : t = "" := by simpa [falsy, ht] using h
    simp [getEncryptedSecrets, isObject, JsValue.truthy, hkey, ht, htt, Run.bind_eq, Run.call,
      Run.andThen, encryptWithSignature, encrypt, Run.throw]


/-- On inline secrets that `getEncryptedSecrets` refuses, the first part of
`main` fails with the calls of its configuration steps and of
`getEncryptedSecrets` only. -/
theorem mainSubmit_fails (w : World) (props : List (String × JsValue))
    (allowed : Effect → Bool)
    (hconf : ∀ e : Effect, e.isCrypto = false → e.isGithub = false → e.isSubmission = false →
      allowed e = true)
    (h : (getEncryptedSecrets w (.obj props) (w.env "DEPLOYER_PRIVATE_KEY")).FailsWithin allowed) :
    (mainSubmit w (.obj props)).FailsWithin allowed := by
  unfold mainSubmit
  refine Run.FailsWithin.bind_left _ ?_
  unfold mainPrepare
  refine Run.FailsWithin.call _ _ _ (hconf _ rfl rfl rfl) fun _ _ => ?_
  refine Run.FailsWithin.call _ _ _ (hconf _ rfl rfl rfl) fun _ _ => ?_
  refine Run.FailsWithin.call _ _ _ (hconf _ rfl rfl rfl) fun _ _ => ?_
  refine Run.FailsWithin.call _ _ _ (hconf _ rfl rfl rfl) fun _ _ => ?_
  refine Run.FailsWithin.call _ _ _ (hconf _ rfl rfl rfl) fun _ _ => ?_
  refine Run.FailsWithin.bind_left _ ?_
  unfold prepareSecrets
  exact Run.FailsWithin.bind_left _ h


/-! ## Theorems: the claims on the request source and on secrets -/

/-- C7, counterexample: the computed value 73.5 is not an integer, and the
request source does not raise an error on it: it returns the encoding of 74. -/
theorem returnScore_half_is_returned :
    isInteger (.finite (147 / 2)) = false ∧
      returnScore (.finite (147 / 2)) = .ok (.encodeUint256 (.finite 74)) := by
  have hfloor : (⌊(147 / 2 : ℚ)⌋ : ℤ) = 73 := by norm_num [Int.floor_eq_iff]
  have hround : (⌊(147 / 2 : ℚ) + 1 / 2⌋ : ℤ) = 74 := by norm_num [Int.floor_eq_iff]
  constructor
  · simp only [isInteger, hfloor]
    norm_num
  · simp only [returnScore, key_prob, mathRound, isInteger, hround]
    simp

/-- C7, as amended: on every finite computed value, integer or not, the
request source returns the encoding of the value rounded to the nearest
integer (halves up); it raises the not-an-integer error exactly on `NaN` and
on the two infinities. -/
theorem returnScore_eq (computed : JsNumber) :
    returnScore computed =
      match computed with
      | .finite q => .ok (.encodeUint256 (.finite (⌊q + 1 / 2⌋ : ℤ)))
      | .nan => .error (.error "Not a integer NaN")
      | .posInf => .error (.error "Not a integer Infinity")
      | .negInf => .error (.error "Not a integer -Infinity") := by
  cases computed with
  | finite q => simp [returnScore, key_prob, mathRound, isInteger]
  | nan => rfl
  | posInf => rfl
  | negInf => rfl


/-- C8, counterexample: one URL serving the body with the entry `"0x0": ""`
and one node address.  The bodies are identical and the body has an entry
under the default key, yet `verifyOffchainSecrets` throws the missing-node
error, because the entry's value is falsy. -/
theorem verifyOffchainSecrets_empty_default_entry :
    hasEntryAt (.obj [("0x0", .str "")]) "0x0" = true ∧
      (verifyOffchainSecrets (World.demo (envOf []) (.obj [("0x0", .str "")]) [⟨"AB"⟩])
          (.arr [.str "https://a.example/secrets.json"])).result =
        .error (.error "No secrets specified for node 0xab and no default secrets found.") :=
  ⟨rfl, rfl⟩

/-- C8, as amended: for a non-empty list of URLs that are all served,
`verifyOffchainSecrets` returns `true` exactly when every body serialises
(`JSON.stringify`) to the same text as the first and, for every node address,
has a truthy value under the lower-cased address or under `"0x0"`.  In every
other case it throws: the mismatch error naming a URL whose body differs and
the first URL, the missing-node error naming an address that a body does not
cover, or the engine's error for reading a property of a `null` body. -/
theorem verifyOffchainSecrets_spec (w : World) (body : String → JsValue)
    (first : JsValue) (rest : List JsValue)
    (hfetch : ∀ u ∈ first :: rest, w.httpGet u.toStr = .ok (body u.toStr)) :
    ((verifyOffchainSecrets w (.arr (first :: rest))).result = .ok true ↔
        ∀ u ∈ first :: rest,
          JsValue.stringify (body u.toStr) = JsValue.stringify (body first.toStr) ∧
            ∀ a ∈ w.nodeAddresses, covers (body u.toStr) a = true) ∧
      ((verifyOffchainSecrets w (.arr (first :: rest))).result = .ok true ∨
        ∃ e, (verifyOffchainSecrets w (.arr (first :: rest))).result = .error e ∧
          ((∃ u ∈ first :: rest,
              JsValue.stringify (body u.toStr) ≠ JsValue.stringify (body first.toStr) ∧
                e = .error (mismatchMessage u first)) ∨
            (∃ u ∈ first :: rest, ∃ a ∈ w.nodeAddresses,
              covers (body u.toStr) a = false ∧ e = .error (missingNodeMessage a)) ∨
            (∃ d, e = .typeError d))) := by
  rw [verifyOffchainSecrets_result w body first rest hfetch]
  cases hc : checkResponses (first, body first.toStr) w.nodeAddresses
      ((first :: rest).map fun u => (u, body u.toStr)) with
  | ok u =>
    have hall := (checkResponses_ok_iff _ _ _).mp hc
    refine ⟨⟨fun _ v hv => ?_, fun _ => rfl⟩, Or.inl rfl⟩
    exact hall (v, body v.toStr) (List.mem_map.mpr ⟨v, hv, rfl⟩)
  | error e =>
    refine ⟨⟨fun h => by simp [Except.map] at h, fun h => ?_⟩, Or.inr ⟨e, rfl, ?_⟩⟩
    · have hok : checkResponses (first, body first.toStr) w.nodeAddresses
          ((first :: rest).map fun u => (u, body u.toStr)) = .ok () := by
        rw [checkResponses_ok_iff]
        intro p hp
        obtain ⟨v, hv, rfl⟩ := List.mem_map.mp hp
        exact h v hv
      rw [hc] at hok
      cases hok
    · rcases checkResponses_error _ _ _ e hc with ⟨p, hp, h1, h2⟩ | ⟨p, hp, a, ha, h1, h2⟩ | hd
      · obtain ⟨v, hv, rfl⟩ := List.mem_map.mp hp
        exact Or.inl ⟨v, hv, h1, h2⟩
      · obtain ⟨v, hv, rfl⟩ := List.mem_map.mp hp
        exact Or.inr (Or.inl ⟨v, hv, a, ha, h1, h2⟩)
      · exact Or.inr (Or.inr hd)

/-- C8, witness: two URLs serving the same body with a default entry, and one
node address: the hypothesis holds and verification returns `true`. -/
theorem verifyOffchainSecrets_spec_witness :
    (∀ u ∈ [JsValue.str "https://a.example/s.json", .str "https://b.example/s.json"],
        (World.demo (envOf []) (.obj [("0x0", .str "c2VjcmV0")]) [⟨"AB"⟩]).httpGet u.toStr =
          .ok ((fun _ => JsValue.obj [("0x0", .str "c2VjcmV0")]) u.toStr)) ∧
      (verifyOffchainSecrets (World.demo (envOf []) (.obj [("0x0", .str "c2VjcmV0")]) [⟨"AB"⟩])
          (.arr [.str "https://a.example/s.json", .str "https://b.example/s.json"])).result =
        .ok true :=
  ⟨fun _ _ => rfl,
    ((verifyOffchainSecrets_spec (World.demo (envOf []) (.obj [("0x0", .str "c2VjcmV0")]) [⟨"AB"⟩])
      (fun _ => .obj [("0x0", .str "c2VjcmV0")]) (.str "https://a.example/s.json")
      [.str "https://b.example/s.json"] (fun _ _ => rfl)).1).mpr
      (fun _ _ => ⟨rfl, fun a ha => by
        have : a = ⟨"AB"⟩ := by simpa [World.demo] using ha
        subst this
        rfl⟩)⟩

/-- C9, the code at the failing input: on the empty object `getEncryptedSecrets`
signs and encrypts the text of the empty object, looks the token up, posts a
gist and returns the record with the gist URL; on the empty array it returns
`"0x"` after reading the public key only. -/
theorem getEncryptedSecrets_empty_object_uploads :
    (getEncryptedSecrets (World.demo (envOf [("GITHUB_API_TOKEN", "ghp_t")]) .null [])
        (.obj []) (some "0xkey")).result =
        .ok (.record "https://gist.github.com/u/abc123"
          "0xenc(d0,https://gist.github.com/u/abc123/raw)") ∧
      ((getEncryptedSecrets (World.demo (envOf [("GITHUB_API_TOKEN", "ghp_t")]) .null [])
        (.obj []) (some "0xkey")).trace.filter
          fun e => e.isCrypto || e.isGithub).length = 5 ∧
      getEncryptedSecrets (World.demo (envOf [("GITHUB_API_TOKEN", "ghp_t")]) .null [])
        (.arr []) (some "0xkey") = ⟨[.getDONPublicKey], .ok (.text "0x")⟩ :=
  ⟨rfl, rfl, rfl⟩


/-- The request source without an API key: it throws before the HTTP request. -/
theorem requestSource_no_key (fl : FloatOps) (respond : HttpResponse) (args : List String)
    (apiKey : Option String) (h : falsy apiKey = true) :
    requestSource fl respond args apiKey =
      ⟨[.log "HTTP Post Request to https://api.openai.com/v1/completions"],
        .error (.error "OPEN_AI_APIKEY environment variable not set for Open AI API")⟩ := by
  cases apiKey with
  | none => rfl
  | some k =>
    have hk : k = "" := by simpa [falsy] using h
    subst hk
    rfl

/-- C10, counterexample: with the RPC endpoint key unset and the other three
variables set, `main` does not fail: it builds the provider URL from the
substitute key and goes on to submit the request. -/
theorem mainStart_substitutes_rpc_key :
    (World.demo (envOf [("OPENAI_API_KEY", "sk-1"), ("DEPLOYER_PRIVATE_KEY", "0xkey"),
        ("GITHUB_API_TOKEN", "ghp_t")]) .null []).env "QUICKNODE_API_KEY" = none ∧
      (mainStart (World.demo (envOf [("OPENAI_API_KEY", "sk-1"),
        ("DEPLOYER_PRIVATE_KEY", "0xkey"), ("GITHUB_API_TOKEN", "ghp_t")]) .null [])).trace.head? =
        some (.jsonRpcProvider ("https://alien-wild-friday.ethereum-sepolia.discover." ++
          "quiknode.pro/oKxs-03sij-U_N0iOlrSsZFr29-IqbuF")) ∧
      (mainStart (World.demo (envOf [("OPENAI_API_KEY", "sk-1"),
        ("DEPLOYER_PRIVATE_KEY", "0xkey"), ("GITHUB_API_TOKEN", "ghp_t")]) .null [])).result =
        .ok ⟨"0x01", some true, .text "0xenc(d0,https://gist.github.com/u/abc123/raw)",
          some "https://gist.github.com/u/abc123"⟩ :=
  ⟨rfl, rfl, rfl⟩

/-! ## Witnesses -/

/-- C2, witness: two ticks and an event for another request, then the timer. -/
theorem timeout_without_event_witness :
    (Store.empty "0x01" = none ∧
      ∀ t ∈ [Task.tick, .event (.AIReviewResponse "0x02" [1] []), .tick],
        t ≠ .timeout ∧ t.recordsFor "0x01" = false) ∧
      (step ⟨true⟩ (run ⟨true⟩ (Session.start "0x01" true Store.empty)
          [.tick, .event (.AIReviewResponse "0x02" [1] []), .tick]) .timeout).exitCode
        = some 1 :=
  ⟨⟨rfl, by decide⟩,
    (timeout_without_event ⟨true⟩ "0x01" true Store.empty
      [.tick, .event (.AIReviewResponse "0x02" [1] []), .tick] [.tick] rfl (by decide)).2.2.2.1⟩

/-- C3, witness: a fulfillment event, the tick that resolves, then the timer
and another tick. -/
theorem resolved_never_rejects_witness :
    (run ⟨false⟩ (Session.start "0x01" true Store.empty)
        [.event (.AIReviewResponse "0x01" [42] []), .tick]).promise = .fulfilled ∧
      (run ⟨false⟩ (Session.start "0x01" true Store.empty)
        ([.event (.AIReviewResponse "0x01" [42] []), .tick] ++ [.timeout, .tick])).rejectCalls
        = 0 :=
  ⟨by decide,
    (resolved_never_rejects ⟨false⟩ "0x01" true Store.empty
      [.event (.AIReviewResponse "0x01" [42] []), .tick] [.timeout, .tick] (by decide)).1⟩

/-- C5, witness: events for two other requests between ticks. -/
theorem pending_without_matching_event_witness :
    (Store.empty "0x01" = none ∧
      ∀ t ∈ [Task.tick, .event (.UserCallbackError "0x02" "reverted"), .tick,
          .event (.AIReviewResponse "0x03" [7] []), .tick],
        t ≠ .timeout ∧ t.recordsFor "0x01" = false) ∧
      (run ⟨true⟩ (Session.start "0x01" false Store.empty)
        [.tick, .event (.UserCallbackError "0x02" "reverted"), .tick,
          .event (.AIReviewResponse "0x03" [7] []), .tick]).promise = .pending :=
  ⟨⟨rfl, by decide⟩,
    (pending_without_matching_event ⟨true⟩ "0x01" false Store.empty
      [.tick, .event (.UserCallbackError "0x02" "reverted"), .tick,
        .event (.AIReviewResponse "0x03" [7] []), .tick] rfl (by decide)).1⟩

/-! ## Theorems: the later claims -/

/-- Deliveries to a running session change its store only. -/
theorem run_events (rt : Runtime) (es : List OracleEvent) (s : Session)
    (hx : s.exitCode = none) :
    run rt s (es.map .event) = { s with store := es.foldl deliver s.store } := by
  induction es generalizing s with
  | nil => rfl
  | cons e es ih =>
    have hstep : step rt s (.event e) = { s with store := deliver s.store e } := by
      simp [step, hx]
    show run rt (step rt s (.event e)) (es.map .event) = _
    rw [hstep, ih { s with store := deliver s.store e } hx]
    rfl

/-- Deliveries keyed by one id leave the entries under every other id as they
were. -/
theorem deliveries_frame (id : RequestId) (es : List OracleEvent) (store : Store)
    (h : ∀ e ∈ es, e.eventRequestId = id) (k : RequestId) (hk : k ≠ id) :
    (es.foldl deliver store) k = store k := by
  induction es generalizing store with
  | nil => rfl
  | cons e es ih =>
    have he : e.eventRequestId = id := h e (List.mem_cons_self e es)
    rw [List.foldl_cons, ih _ fun x hx => h x (List.mem_cons_of_mem e hx)]
    simp [deliver, Store.set, he, hk]

/-- Deliveries keyed by one id leave the last entry under it and nothing else
changed. -/
theorem deliveries_same_id (id : RequestId) (es : List OracleEvent) (last : OracleEvent)
    (store : Store) (h : ∀ e ∈ es ++ [last], e.eventRequestId = id) :
    (es ++ [last]).foldl deliver store = store.set id last.entry := by
  have hlast : last.eventRequestId = id := h last (by simp)
  have hes : ∀ e ∈ es, e.eventRequestId = id := fun e he => h e (by simp [he])
  funext k
  rw [List.foldl_append, List.foldl_cons, List.foldl_nil]
  by_cases hk : k = id
  · simp [deliver, Store.set, hk, hlast]
  · have := deliveries_frame id es store hes k hk
    simp [deliver, Store.set, hk, hlast, this]

/-- C12: when events keyed by the awaited id are delivered to a running
session, each delivery overwrites the entry under that id: afterwards the
store holds the entry of the last event delivered, the entries under every
other id are as before, and the next tick does exactly what it would do had
only the last event been delivered. -/
theorem last_delivery_wins (rt : Runtime) (s : Session) (es : List OracleEvent)
    (last : OracleEvent) (hx : s.exitCode = none)
    (h : ∀ e ∈ es ++ [last], e.eventRequestId = s.requestId) :
    (run rt s ((es ++ [last]).map .event)).store s.requestId = some last.entry ∧
      (∀ k, k ≠ s.requestId →
        (run rt s ((es ++ [last]).map .event)).store k = s.store k) ∧
      step rt (run rt s ((es ++ [last]).map .event)) .tick =
        step rt (run rt s [.event last]) .tick := by
  have hrun := run_events rt (es ++ [last]) s hx
  have hfold := deliveries_same_id s.requestId es last s.store h
  have hone : run rt s [.event last] = { s with store := s.store.set s.requestId last.entry } := by
    have := run_events rt [last] s hx
    simp only [List.map_cons, List.map_nil, List.foldl_cons, List.foldl_nil] at this
    rw [this]
    simp [deliver, h last (by simp)]
  rw [hrun, hfold, hone]
  refine ⟨by simp [Store.set], fun k hk => by simp [Store.set, hk], rfl⟩

/-- C12, witness: an error event and then a fulfillment event for the same
request; the store holds the fulfillment entry. -/
theorem last_delivery_wins_witness :
    ((Session.start "0x01" false Store.empty).exitCode = none ∧
      ∀ e ∈ [OracleEvent.UserCallbackError "0x01" "reverted"] ++
          [OracleEvent.AIReviewResponse "0x01" [42] []],
        e.eventRequestId = (Session.start "0x01" false Store.empty).requestId) ∧
      (run ⟨true⟩ (Session.start "0x01" false Store.empty)
        (([OracleEvent.UserCallbackError "0x01" "reverted"] ++
          [OracleEvent.AIReviewResponse "0x01" [42] []]).map .event)).store "0x01" =
        some (.aiReviewResponse [42] []) :=
  ⟨⟨rfl, by decide⟩,
    (last_delivery_wins ⟨true⟩ (Session.start "0x01" false Store.empty)
      [.UserCallbackError "0x01" "reverted"] (.AIReviewResponse "0x01" [42] []) rfl
      (by decide)).1⟩


/-- The result of `checkTokenGistScope` after a status-200 lookup: it depends
on the first piece of the scopes header only, and a missing header passes. -/
theorem checkTokenGistScope_of_lookup (w : World) (token : String) (r : UserResponse)
    (h : w.githubGetUser ("Bearer " ++ token) = .ok r) (h200 : r.status = 200) :
    (checkTokenGistScope w token).result =
      match r.oauthScopes with
      | none => .ok true
      | some header =>
        if (splitCommaSpace header.data []).head? = some "gist" then .ok true
        else .error (.error
          "The provided Github API token does not have permissions to read and write Gists") := by
  cases hs : r.oauthScopes with
  | none => simp [checkTokenGistScope, Run.bind_eq, Run.call, Run.andThen, h, h200, hs, Run.pure_eq,
      Run.ret]
  | some header =>
    by_cases hg : (splitCommaSpace header.data []).head? = some "gist"
    · by_cases hl : 1 < (splitCommaSpace header.data []).length <;>
        simp [checkTokenGistScope, Run.bind_eq, Run.call, Run.andThen, h, h200, hs, hg, hl,
          Run.pure_eq, Run.ret]
    · simp [checkTokenGistScope, Run.bind_eq, Run.call, Run.andThen, h, h200, hs, hg, Run.throw]

/-- C11, the code at the failing input: the lookup succeeds with status 200
and reports the scopes `repo, gist`.  The list includes `gist`, yet
`checkTokenGistScope` throws the missing-permission error, because it compares
the first scope only; `createGist` then makes no upload.  With the scopes
`gist, repo` the check returns `true`. -/
theorem checkTokenGistScope_gist_not_first :
    "gist" ∈ splitCommaSpace "repo, gist".data [] ∧
      (checkTokenGistScope
        { World.demo (envOf []) .null [] with
          githubGetUser := fun _ => .ok ⟨200, "OK", some "repo, gist"⟩ } "ghp_t").result =
        .error (.error
          "The provided Github API token does not have permissions to read and write Gists") ∧
      (createGist
        { World.demo (envOf []) .null [] with
          githubGetUser := fun _ => .ok ⟨200, "OK", some "repo, gist"⟩ } "ghp_t"
          (.obj [("0x0", .str "c2VjcmV0")])).trace = [.githubGetUser "Bearer ghp_t"] ∧
      (checkTokenGistScope
        { World.demo (envOf []) .null [] with
          githubGetUser := fun _ => .ok ⟨200, "OK", some "gist, repo"⟩ } "ghp_t").result =
        .ok true :=
  ⟨by decide, rfl, rfl, rfl⟩

/-- C13, counterexample: the balance covers the amount and
`FUND_ON_SUBSCRIPTION` is set, but the funding transfer is rejected: the script
throws and `addConsumer` is not issued. -/
theorem subscriptionMain_transfer_rejected :
    ((subscriptionMain (SubscriptionWorld.demo 5 9 true
        (.error (.error "transaction failed")))).trace.filter
        Effect.isSubscriptionWrite) =
        [.transferAndCall functionsBillingRegistryProxy 5 7] ∧
      (subscriptionMain (SubscriptionWorld.demo 5 9 true
        (.error (.error "transaction failed")))).result =
        .error (.error "transaction failed") :=
  ⟨rfl, rfl⟩

/-- C13, as amended: once the signer's balance is read, an amount above the
balance makes the script throw with neither the funding transfer nor
`addConsumer` issued.  Otherwise the funding transfer is issued exactly when
`FUND_ON_SUBSCRIPTION` is set, and `addConsumer` is issued exactly once, after
the transfer, unless the transfer was issued and it or the wait for its
receipt failed, in which case `addConsumer` is not issued and the script
throws that failure.  The script ends exactly as the last call it issued:
with the error of the transfer or of its wait, else with the error of
`addConsumer` or of its wait, else normally. -/
theorem subscriptionMain_writes (w : SubscriptionWorld) (amount balance : Int)
    (signer : String) (others : List String)
    (hreg : w.getContractFactory
      "contracts/dev/functions/FunctionsBillingRegistry.sol:FunctionsBillingRegistry" = .ok ())
    (hamount : w.juelsAmount = .ok amount)
    (hlink : w.getContractFactory "LinkToken" = .ok ())
    (hsigners : w.getSigners = .ok (signer :: others))
    (hbalance : w.balanceOf signer = .ok balance) :
    (subscriptionMain w).trace.filter Effect.isSubscriptionWrite =
        (if amount > balance then []
         else
          (if w.fundOnSubscription then
            [.transferAndCall functionsBillingRegistryProxy amount w.subscriptionId]
           else []) ++
          (if w.fundOnSubscription && !(w.transferAndCall.toBool && w.fundWait.toBool) then []
           else [.addConsumer w.subscriptionId w.consumer])) ∧
      (amount > balance →
        (subscriptionMain w).result = .error (.error "Insufficent LINK balance")) ∧
      (subscriptionMain w).result =
        (if amount > balance then .error (.error "Insufficent LINK balance")
         else
          match (if w.fundOnSubscription then
              (match w.transferAndCall with
                | .error e => Except.error e
                | .ok _ => w.fundWait)
            else .ok ()) with
          | .error e => .error e
          | .ok _ =>
            match w.addConsumer with
            | .error e => .error e
            | .ok _ => w.addWait) := by
  by_cases hgt : amount > balance
  · simp [subscriptionMain, Run.bind_eq, Run.andThen, Run.call, Run.lift, Run.throw, hreg,
      hamount, hlink, hsigners, hbalance, hgt, Effect.isSubscriptionWrite]
  · cases hf : w.fundOnSubscription <;> cases ht : w.transferAndCall <;>
      cases hw : w.fundWait <;> cases ha : w.addConsumer <;> cases hd : w.addWait <;>
      simp [subscriptionMain, Run.bind_eq, Run.andThen, Run.call, Run.lift, Run.throw,
        Run.pure_eq, Run.ret, hreg, hamount, hlink, hsigners, hbalance, hgt, hf, ht, hw, ha, hd,
        Effect.isSubscriptionWrite, Except.toBool]


/-- C13, witness: balance 9, amount 5, funding on and every call accepted:
the transfer is issued, then `addConsumer`. -/
theorem subscriptionMain_writes_witness :
    (subscriptionMain (SubscriptionWorld.demo 5 9 true (.ok ()))).trace.filter
        Effect.isSubscriptionWrite =
      [.transferAndCall functionsBillingRegistryProxy 5 7, .addConsumer 7 "0xC0"] ∧
      (subscriptionMain (SubscriptionWorld.demo 5 9 true (.ok ()))).result = .ok () :=
  ⟨(subscriptionMain_writes (SubscriptionWorld.demo 5 9 true (.ok ())) 5 9 "0xS1" []
      rfl rfl rfl rfl rfl).1.trans rfl,
    (subscriptionMain_writes (SubscriptionWorld.demo 5 9 true (.ok ())) 5 9 "0xS1" []
      rfl rfl rfl rfl rfl).2.2.trans rfl⟩

theorem Run.result_bind_ok {α β : Type} (r : Run α) (f : α → Run β) (b : β)
    (h : (r >>= f).result = .ok b) : ∃ a, r.result = .ok a ∧ (f a).result = .ok b := by
  obtain ⟨t, res⟩ := r
  cases res with
  | error e => simp [Run.bind_eq, Run.andThen] at h
  | ok a => exact ⟨a, rfl, h⟩

/-- A value `getEncryptedSecrets` returns on a plain object is the record, with
an `encrypted` field that starts with `0x`. -/
theorem getEncryptedSecrets_object (w : World) (props : List (String × JsValue))
    (key : Option String) (r : EncryptedSecrets)
    (h : (getEncryptedSecrets w (.obj props) key).result = .ok r) :
    ∃ gistUrl e, r = .record gistUrl ("0x" ++ e) := by
  unfold getEncryptedSecrets at h
  obtain ⟨fetched, -, h⟩ := Run.result_bind_ok _ _ _ h
  simp only [isObject, JsValue.truthy, Bool.and_self, if_true] at h
  cases key with
  | none => simp [Run.throw] at h
  | some k =>
    by_cases hk : k = ""
    · simp [hk, Run.throw] at h
    · simp only [hk, if_false] at h
      obtain ⟨cipher, -, h⟩ := Run.result_bind_ok _ _ _ h
      cases ht : w.env "GITHUB_API_TOKEN" with
      | none => simp [ht, Run.throw] at h
      | some token =>
        by_cases hte : token = ""
        · simp [ht, hte, Run.throw] at h
        · simp only [ht, hte, if_false] at h
          obtain ⟨secretsURL, -, h⟩ := Run.result_bind_ok _ _ _ h
          obtain ⟨u, -, h⟩ := Run.result_bind_ok _ _ _ h
          obtain ⟨encrypted, -, h⟩ := Run.result_bind_ok _ _ _ h
          simp [Run.pure_eq, Run.ret] at h
          exact ⟨secretsURL, encrypted, h.symm⟩

/-- A value `getEncryptedSecrets` returns on anything but a plain object is a
string that starts with `0x`. -/
theorem getEncryptedSecrets_other (w : World) (secrets : JsValue)
    (key : Option String) (r : EncryptedSecrets) (hobj : isObject secrets = false)
    (h : (getEncryptedSecrets w secrets key).result = .ok r) :
    ∃ v, r = .text ("0x" ++ v) := by
  unfold getEncryptedSecrets at h
  obtain ⟨fetched, -, h⟩ := Run.result_bind_ok _ _ _ h
  simp only [hobj, Bool.false_and, Bool.false_eq_true, if_false] at h
  obtain ⟨positive, -, h⟩ := Run.result_bind_ok _ _ _ h
  cases positive with
  | false =>
    simp [Run.pure_eq, Run.ret] at h
    exact ⟨"", by rw [← h]; rfl⟩
  | true =>
    simp only [if_true] at h
    cases ha : isArray secrets with
    | false => simp [ha, Run.throw] at h
    | true =>
      simp only [ha, Bool.not_true, Bool.false_eq_true, if_false] at h
      obtain ⟨verified, -, h⟩ := Run.result_bind_ok _ _ _ h
      cases verified with
      | false => simp [Run.throw] at h
      | true =>
        simp only [if_true] at h
        obtain ⟨encrypted, -, h⟩ := Run.result_bind_ok _ _ _ h
        simp [Run.pure_eq, Run.ret] at h
        exact ⟨encrypted, h.symm⟩


theorem Run.within_bind {α β : Type} {allowed : Effect → Bool} (r : Run α) (f : α → Run β)
    (hr : r.Within allowed) (hf : ∀ a, r.result = .ok a → (f a).Within allowed) :
    (r >>= f).Within allowed := by
  obtain ⟨t, res⟩ := r
  cases res with
  | error e => exact hr
  | ok a =>
    intro eff heff
    rcases List.mem_append.mp heff with h1 | h2
    · exact hr eff h1
    · exact hf a rfl eff h2

theorem Run.within_call {α : Type} {allowed : Effect → Bool} (e : Effect)
    (answer : Except JsError α) (he : allowed e = true) :
    (Run.call e answer).Within allowed := by
  intro eff heff
  have : eff = e := by simpa [Run.call] using heff
  rw [this]; exact he

theorem Run.within_pure {α : Type} {allowed : Effect → Bool} (a : α) :
    (Pure.pure a : Run α).Within allowed := by
  intro eff heff
  simp [Run.pure_eq, Run.ret] at heff

theorem Run.within_throw {α : Type} {allowed : Effect → Bool} (e : JsError) :
    (Run.throw e : Run α).Within allowed := by
  intro eff heff
  simp [Run.throw] at heff

theorem Run.within_lift {α : Type} {allowed : Effect → Bool} (x : Except JsError α) :
    (Run.lift x).Within allowed := by
  intro eff heff
  simp [Run.lift] at heff

/-- What `getEncryptedSecrets` calls: nothing that submits a request. -/
theorem checkTokenGistScope_within (w : World) (token : String) :
    (checkTokenGistScope w token).Within (fun e => !e.isSubmission) := by
  unfold checkTokenGistScope
  refine Run.within_bind _ _ (Run.within_call _ _ rfl) fun response _ => ?_
  split
  · exact Run.within_throw _
  · cases response.oauthScopes with
    | none => exact Run.within_pure _
    | some header =>
      simp only [Option.map_some']
      split
      · exact Run.within_throw _
      · split
        · exact Run.within_bind _ _ (Run.within_call _ _ rfl) fun _ _ => Run.within_pure _
        · exact Run.within_pure _

theorem createGist_within (w : World) (token : String) (v : JsValue) :
    (createGist w token v).Within (fun e => !e.isSubmission) := by
  unfold createGist
  refine Run.within_bind _ _ (checkTokenGistScope_within w token) fun _ _ => ?_
  refine Run.within_bind _ _ (Run.within_call _ _ rfl) fun posted _ => ?_
  split
  · exact Run.within_pure _
  · exact Run.within_bind _ _ (Run.within_call _ _ rfl) fun _ _ => Run.within_throw _

theorem encrypt_within (w : World) (k m : String) :
    (encrypt w k m).Within (fun e => !e.isSubmission) :=
  Run.within_call _ _ rfl

theorem encryptWithSignature_within (w : World) (k p m : String) :
    (encryptWithSignature w k p m).Within (fun e => !e.isSubmission) := by
  unfold encryptWithSignature
  exact Run.within_bind _ _ (Run.within_call _ _ rfl) fun _ _ => encrypt_within w _ _

theorem fetchSecrets_within (w : World) (urls : List JsValue) :
    (fetchSecrets w urls).Within (fun e => !e.isSubmission) := by
  induction urls with
  | nil => exact Run.within_pure _
  | cons u us ih =>
    unfold fetchSecrets
    refine Run.within_bind _ _ (Run.within_call _ _ rfl) fun _ _ => ?_
    exact Run.within_bind _ _ ih fun _ _ => Run.within_pure _

theorem verifyOffchainSecrets_within (w : World) (urls : JsValue) :
    (verifyOffchainSecrets w urls).Within (fun e => !e.isSubmission) := by
  unfold verifyOffchainSecrets
  refine Run.within_bind _ _ (Run.within_call _ _ rfl) fun _ _ => ?_
  refine Run.within_bind _ _ (fetchSecrets_within w _) fun rs _ => ?_
  split
  · exact Run.within_pure _
  · exact Run.within_bind _ _ (Run.within_lift _) fun _ _ => Run.within_pure _

theorem getEncryptedSecrets_within (w : World) (secrets : JsValue) (key : Option String) :
    (getEncryptedSecrets w secrets key).Within (fun e => !e.isSubmission) := by
  unfold getEncryptedSecrets
  refine Run.within_bind _ _ (Run.within_call _ _ rfl) fun fetched _ => ?_
  split
  · split
    · exact Run.within_throw _
    · split
      · exact Run.within_throw _
      · refine Run.within_bind _ _ (encryptWithSignature_within w _ _ _) fun _ _ => ?_
        split
        · exact Run.within_throw _
        · split
          · exact Run.within_throw _
          · refine Run.within_bind _ _ (createGist_within w _ _) fun _ _ => ?_
            refine Run.within_bind _ _ (Run.within_call _ _ rfl) fun _ _ => ?_
            exact Run.within_bind _ _ (encrypt_within w _ _) fun _ _ => Run.within_pure _
  · refine Run.within_bind _ _ (Run.within_lift _) fun _ _ => ?_
    split
    · split
      · exact Run.within_throw _
      · refine Run.within_bind _ _ (verifyOffchainSecrets_within w _) fun _ _ => ?_
        split
        · exact Run.within_bind _ _ (encrypt_within w _ _) fun _ _ => Run.within_pure _
        · exact Run.within_throw _
    · exact Run.within_pure _


theorem prepareSecrets_within (w : World) (secrets : JsValue) (key : Option String) :
    (prepareSecrets w secrets key).Within (fun e => !e.isSubmission) := by
  unfold prepareSecrets
  split
  · exact Run.within_pure _
  · refine Run.within_bind _ _ (getEncryptedSecrets_within w _ _) fun _ _ => ?_
    split <;> exact Run.within_pure _

theorem mainPrepare_within (w : World) (secrets : JsValue) :
    (mainPrepare w secrets).Within (fun e => !e.isSubmission) := by
  unfold mainPrepare
  refine Run.within_bind _ _ (Run.within_call _ _ rfl) fun _ _ => ?_
  refine Run.within_bind _ _ (Run.within_call _ _ rfl) fun _ _ => ?_
  refine Run.within_bind _ _ (Run.within_call _ _ rfl) fun _ _ => ?_
  refine Run.within_bind _ _ (Run.within_call _ _ rfl) fun _ _ => ?_
  refine Run.within_bind _ _ (Run.within_call _ _ rfl) fun _ _ => ?_
  refine Run.within_bind _ _ (prepareSecrets_within w _ _) fun x _ => ?_
  obtain ⟨enc, d, g⟩ := x
  exact Run.within_bind _ _ (Run.within_call _ _ rfl) fun _ _ => Run.within_pure _

/-- The variable `encryptedSecrets` after lines 61-77, read through
`encryptedSecrets ?? "0x"`, is a string that starts with `0x`. -/
theorem prepareSecrets_argument (w : World) (secrets : JsValue) (key : Option String)
    (enc : Option EncryptedSecrets) (d : Option Bool) (g : Option String)
    (h : (prepareSecrets w secrets key).result = .ok (enc, d, g)) :
    ∃ v, enc.getD (.text "0x") = .text ("0x" ++ v) := by
  by_cases hu : ∃ props, secrets = .obj props
  · obtain ⟨props, rfl⟩ := hu
    simp only [prepareSecrets] at h
    obtain ⟨r, hr, h⟩ := Run.result_bind_ok _ _ _ h
    obtain ⟨gistUrl, e, rfl⟩ := getEncryptedSecrets_object w props key r hr
    simp [isObject, Run.pure_eq, Run.ret, EncryptedSecrets.encryptedField] at h
    exact ⟨e, by rw [← h.1]; rfl⟩
  · cases secrets with
    | obj props => exact absurd ⟨props, rfl⟩ hu
    | undefined =>
      simp [prepareSecrets, Run.pure_eq, Run.ret] at h
      exact ⟨"", by rw [← h.1]; rfl⟩
    | _ =>
      simp only [prepareSecrets] at h
      obtain ⟨r, hr, h⟩ := Run.result_bind_ok _ _ _ h
      have hv := fun ho => getEncryptedSecrets_other w _ key r ho hr
      obtain ⟨v, rfl⟩ := hv rfl
      simp [isObject, Run.pure_eq, Run.ret] at h
      exact ⟨v, by rw [← h.1]; rfl⟩

/-- The prepared `encryptedSecrets`, read through `?? "0x"`, starts with `0x`. -/
theorem mainPrepare_argument (w : World) (secrets : JsValue) (p : Prepared)
    (h : (mainPrepare w secrets).result = .ok p) :
    ∃ v, p.encryptedSecrets.getD (.text "0x") = .text ("0x" ++ v) := by
  unfold mainPrepare at h
  obtain ⟨_, -, h⟩ := Run.result_bind_ok _ _ _ h
  obtain ⟨_, -, h⟩ := Run.result_bind_ok _ _ _ h
  obtain ⟨_, -, h⟩ := Run.result_bind_ok _ _ _ h
  obtain ⟨source, -, h⟩ := Run.result_bind_ok _ _ _ h
  obtain ⟨_, -, h⟩ := Run.result_bind_ok _ _ _ h
  obtain ⟨⟨enc, d, g⟩, hx, h⟩ := Run.result_bind_ok _ _ _ h
  obtain ⟨_, -, h⟩ := Run.result_bind_ok _ _ _ h
  simp [Run.pure_eq, Run.ret] at h
  subst h
  exact prepareSecrets_argument w secrets _ enc d g hx

/-- The only submission `submitRequest` makes carries `encryptedSecrets ?? "0x"`. -/
theorem submitRequest_argument (w : World) (p : Prepared) (source : String)
    (enc : EncryptedSecrets) (sub gas : Nat)
    (h : Effect.addReview source enc sub gas ∈ (submitRequest w p).trace) :
    enc = p.encryptedSecrets.getD (.text "0x") := by
  unfold submitRequest at h
  cases ha : w.addReview p.source (p.encryptedSecrets.getD (.text "0x")) with
  | error e =>
    simp [Run.bind_eq, Run.andThen, Run.call, ha] at h
    exact h.2.1
  | ok u =>
    cases hr : w.requestSentId with
    | error e =>
      simp [Run.bind_eq, Run.andThen, Run.call, ha, hr] at h
      exact h.2.1
    | ok found =>
      cases found <;>
        simp [Run.bind_eq, Run.andThen, Run.call, Run.throw, Run.pure_eq, Run.ret, ha, hr] at h <;>
        exact h.2.1


/-- C14: a value `getEncryptedSecrets` returns is the record `{ gistUrl,
encrypted }`, with `encrypted` starting with `0x`, when `isObject(secrets)`
holds, and a string starting with `0x` when it does not; so whatever `secrets`
is, every submission `main` makes passes a string that starts with `0x` as the
encrypted secrets. -/
theorem encryptedSecrets_shape (w : World) (secrets : JsValue) :
    (∀ key r, (getEncryptedSecrets w secrets key).result = .ok r →
      (isObject secrets = true ∧ ∃ gistUrl e, r = .record gistUrl ("0x" ++ e)) ∨
        (isObject secrets = false ∧ ∃ v, r = .text ("0x" ++ v))) ∧
      (∀ source enc sub gas,
        Effect.addReview source enc sub gas ∈ (mainSubmit w secrets).trace →
          ∃ v, enc = .text ("0x" ++ v)) := by
  constructor
  · intro key r h
    cases ho : isObject secrets with
    | true =>
      cases secrets with
      | obj props => exact Or.inl ⟨rfl, getEncryptedSecrets_object w props key r h⟩
      | _ => simp [isObject] at ho
    | false => exact Or.inr ⟨rfl, getEncryptedSecrets_other w secrets key r ho h⟩
  · intro source enc sub gas h
    unfold mainSubmit at h
    have hw := mainPrepare_within w secrets
    cases hp : (mainPrepare w secrets).result with
    | error e =>
      have ht : (mainPrepare w secrets >>= submitRequest w).trace = (mainPrepare w secrets).trace := by
        simp [Run.bind_eq, Run.andThen, hp]
      rw [ht] at h
      have := hw _ h
      simp [Effect.isSubmission] at this
    | ok p =>
      have ht : (mainPrepare w secrets >>= submitRequest w).trace =
          (mainPrepare w secrets).trace ++ (submitRequest w p).trace := by
        simp [Run.bind_eq, Run.andThen, hp]
      rw [ht] at h
      rcases List.mem_append.mp h with h1 | h2
      · have := hw _ h1
        simp [Effect.isSubmission] at this
      · rw [submitRequest_argument w p source enc sub gas h2]
        exact mainPrepare_argument w secrets p hp

/-- C14, witness: inline secrets in a world where every call succeeds. -/
theorem encryptedSecrets_shape_witness :
    (getEncryptedSecrets (World.demo (envOf [("GITHUB_API_TOKEN", "ghp_t")]) .null [])
        (.obj [("apiKey", .str "sk-1")]) (some "0xkey")).result =
        .ok (.record "https://gist.github.com/u/abc123"
          "0xenc(d0,https://gist.github.com/u/abc123/raw)") ∧
      ((isObject (.obj [("apiKey", .str "sk-1")]) = true ∧
          ∃ gistUrl e, EncryptedSecrets.record "https://gist.github.com/u/abc123"
            "0xenc(d0,https://gist.github.com/u/abc123/raw)" = .record gistUrl ("0x" ++ e)) ∨
        (isObject (.obj [("apiKey", .str "sk-1")]) = false ∧
          ∃ v, EncryptedSecrets.record "https://gist.github.com/u/abc123"
            "0xenc(d0,https://gist.github.com/u/abc123/raw)" = .text ("0x" ++ v))) :=
  ⟨rfl,
    (encryptedSecrets_shape (World.demo (envOf [("GITHUB_API_TOKEN", "ghp_t")]) .null [])
      (.obj [("apiKey", .str "sk-1")])).1 (some "0xkey") _ rfl⟩

/-! ## Theorems: missing environment variables -/

/-- The scope check calls the user lookup and the console only. -/
theorem checkTokenGistScope_quiet (w : World) (token : String) :
    (checkTokenGistScope w token).trace.filter
      (fun e => e.isCrypto || e.isUpload || e.isSubmission) = [] := by
  have hw : (checkTokenGistScope w token).Within
      (fun e => !(e.isCrypto || e.isUpload || e.isSubmission)) := by
    unfold checkTokenGistScope
    refine Run.within_bind _ _ (Run.within_call _ _ rfl) fun response _ => ?_
    split
    · exact Run.within_throw _
    · cases response.oauthScopes with
      | none => exact Run.within_pure _
      | some header =>
        simp only [Option.map_some']
        split
        · exact Run.within_throw _
        · split
          · exact Run.within_bind _ _ (Run.within_call _ _ rfl) fun _ _ => Run.within_pure _
          · exact Run.within_pure _
  rw [List.filter_eq_nil_iff]
  intro e he
  have := hw e he
  simpa using this

/-- With everything else in place, `main` runs to the submitted request
whether or not the RPC endpoint key and the scored-text API key are set: it
signs and encrypts the text of the secrets object, posts the gist, encrypts
the gist URL and submits the request. -/
theorem mainStart_runs (w : World) (key token source gistUrl : String) (id : RequestId)
    (h : w.Cooperates key token source gistUrl id) :
    (mainStart w).result =
        .ok ⟨id, some true,
          .text ("0x" ++ w.encryptWithPublicKey (w.donPublicKey.drop 2) (gistUrl ++ "/raw")),
          some gistUrl⟩ ∧
      (mainStart w).trace.filter (fun e => e.isCrypto || e.isUpload || e.isSubmission) =
        [.sign key (w.keccak256 ((JsValue.stringify (mainSecrets w)).getD "undefined")),
          .encryptWithPublicKey (w.donPublicKey.drop 2)
            ((JsValue.stringify (.obj [("message",
                .str ((JsValue.stringify (mainSecrets w)).getD "undefined")),
              ("signature", .str (w.sign key
                (w.keccak256 ((JsValue.stringify (mainSecrets w)).getD "undefined"))))])).getD
              "undefined"),
          .githubPostGist ("token " ++ token)
            ("encrypted-functions-request-data-" ++ toString w.now ++ ".json")
            ((JsValue.stringify (.obj [("0x0", .str (w.hexToBase64
              (w.encryptWithPublicKey (w.donPublicKey.drop 2)
                ((JsValue.stringify (.obj [("message",
                    .str ((JsValue.stringify (mainSecrets w)).getD "undefined")),
                  ("signature", .str (w.sign key
                    (w.keccak256 ((JsValue.stringify (mainSecrets w)).getD
                      "undefined"))))])).getD "undefined"))))])).getD "undefined"),
          .encryptWithPublicKey (w.donPublicKey.drop 2) (gistUrl ++ "/raw"),
          .addReview source
            (.text ("0x" ++
              w.encryptWithPublicKey (w.donPublicKey.drop 2) (gistUrl ++ "/raw")))
            w.subscriptionId w.gasLimit,
          .waitForReceipt 2] := by
  obtain ⟨hkey, hkne, htok, htne, hwal, ⟨c1, hc1⟩, hsrc, ⟨c2, hc2⟩, hscope, hpost, hacc, hrec⟩ := h
  have hquiet := checkTokenGistScope_quiet w token
  have hsec : mainSecrets w = .obj [("apiKey", match w.env "OPENAI_API_KEY" with
    | some key => .str key
    | none => .undefined)] := rfl
  generalize hM : (JsValue.stringify (mainSecrets w)).getD "undefined" = M
  unfold mainStart mainSubmit mainPrepare prepareSecrets getEncryptedSecrets
    encryptWithSignature encrypt createGist submitRequest
  rw [hsec] at hM ⊢
  cases hchk : checkTokenGistScope w token with
  | mk t res =>
  rw [hchk] at hscope hquiet
  simp only at hscope hquiet
  subst hscope
  simp [hchk, Run.bind_eq, Run.andThen, Run.call, Run.pure_eq, Run.ret, isObject, JsValue.truthy,
    hkey, hkne, htok, htne, hwal, hc1, hsrc, hc2, hpost, hacc, hrec, hM, hquiet,
    EncryptedSecrets.encryptedField, EncryptedSecrets.gistUrlField, Effect.isCrypto,
    Effect.isUpload, Effect.isSubmission, List.filter_cons, List.filter_append]
  intro a ha
  have := List.filter_eq_nil_iff.mp hquiet a ha
  simpa [Effect.isCrypto, Effect.isUpload, Effect.isSubmission] using this

/-- C10, as amended.  Gist API token unset or empty: `main` fails without any
call to GitHub and without submitting, and `getEncryptedSecrets`, given inline
secrets and a signer key, throws the token error at its check of the token.
Deployer private key unset or empty: `main` fails before anything is signed,
encrypted, uploaded or submitted, and `getEncryptedSecrets` refuses the
missing key right after reading the public key.  RPC endpoint key unset or
empty: `main` builds the provider URL from its built-in key and, with
everything else in place, runs on to the submitted request.  Scored-text API
key unset: `main` does not check it; the secrets serialise to the empty
object and, with everything else in place, `main` signs and encrypts that
text, posts the gist and submits the request; the request source is what
throws on a missing key, before it makes its HTTP request. -/
theorem missing_variables (w : World) :
    (falsy (w.env "GITHUB_API_TOKEN") = true →
      (mainStart w).FailsWithin (fun e => !e.isGithub && !e.isSubmission) ∧
        ∀ props key, key ≠ "" →
          (getEncryptedSecrets w (.obj props) (some key)).result =
              .error (.error "GITHUB_API_TOKEN environment variable not set") ∧
            ∀ e ∈ (getEncryptedSecrets w (.obj props) (some key)).trace, e.isGithub = false) ∧
      (falsy (w.env "DEPLOYER_PRIVATE_KEY") = true →
        (mainStart w).FailsWithin
            (fun e => !e.isCrypto && !e.isGithub && !e.isSubmission) ∧
          ∀ props, getEncryptedSecrets w (.obj props) (w.env "DEPLOYER_PRIVATE_KEY") =
            ⟨[.getDONPublicKey],
              .error (.error "signerPrivateKey is required to encrypt inline secrets")⟩) ∧
      (falsy (w.env "QUICKNODE_API_KEY") = true →
        (mainStart w).trace.head? =
            some (.jsonRpcProvider ("https://alien-wild-friday.ethereum-sepolia.discover." ++
              "quiknode.pro/" ++ defaultQuickNodeApiKey)) ∧
          ∀ key token source gistUrl id, w.Cooperates key token source gistUrl id →
            (mainStart w).result =
              .ok ⟨id, some true,
                .text ("0x" ++
                  w.encryptWithPublicKey (w.donPublicKey.drop 2) (gistUrl ++ "/raw")),
                some gistUrl⟩) ∧
      (w.env "OPENAI_API_KEY" = none →
        JsValue.stringify (mainSecrets w) = some "\x7b\x7d" ∧
          (∀ key token source gistUrl id, w.Cooperates key token source gistUrl id →
            (mainStart w).result =
                .ok ⟨id, some true,
                  .text ("0x" ++
                    w.encryptWithPublicKey (w.donPublicKey.drop 2) (gistUrl ++ "/raw")),
                  some gistUrl⟩ ∧
              Effect.sign key (w.keccak256 "\x7b\x7d") ∈ (mainStart w).trace ∧
              (∃ fileName content,
                Effect.githubPostGist ("token " ++ token) fileName content ∈
                  (mainStart w).trace) ∧
              Effect.addReview source
                  (.text ("0x" ++
                    w.encryptWithPublicKey (w.donPublicKey.drop 2) (gistUrl ++ "/raw")))
                  w.subscriptionId w.gasLimit ∈ (mainStart w).trace) ∧
          ∀ fl respond args, (requestSource fl respond args none).FailsWithin
            (fun e => e == .log "HTTP Post Request to https://api.openai.com/v1/completions")) := by
  refine ⟨fun h => ⟨?_, fun props key hkey => ?_⟩, fun h => ⟨?_, fun props => ?_⟩,
    fun h => ⟨?_, fun key token source gistUrl id hco => ?_⟩,
    fun h => ⟨?_, fun key token source gistUrl id hco => ?_, ?_⟩⟩
  · refine mainSubmit_fails w _ _ (fun e _ h2 h3 => by simp [h2, h3]) ?_
    cases hk : falsy (w.env "DEPLOYER_PRIVATE_KEY") with
    | true =>
      rw [getEncryptedSecrets_no_key w _ _ hk]
      exact ⟨⟨_, rfl⟩, by simp [Effect.isGithub, Effect.isSubmission]⟩
    | false =>
      cases hd : w.env "DEPLOYER_PRIVATE_KEY" with
      | none => simp [hd, falsy] at hk
      | some key =>
        have hkey : key ≠ "" := by simpa [hd, falsy] using hk
        rw [getEncryptedSecrets_no_token w _ key hkey h]
        exact ⟨⟨_, rfl⟩, by simp [Effect.isGithub, Effect.isSubmission]⟩
  · rw [getEncryptedSecrets_no_token w props key hkey h]
    exact ⟨rfl, by simp [Effect.isGithub]⟩
  · refine mainSubmit_fails w _ _ (fun e h1 h2 h3 => by simp [h1, h2, h3]) ?_
    rw [getEncryptedSecrets_no_key w _ _ h]
    exact ⟨⟨_, rfl⟩, by simp [Effect.isGithub, Effect.isSubmission, Effect.isCrypto]⟩
  · exact getEncryptedSecrets_no_key w props _ h
  · have hq : quickNodeApiKey w = defaultQuickNodeApiKey := by
      unfold quickNodeApiKey orElse
      cases hv : w.env "QUICKNODE_API_KEY" with
      | none => rfl
      | some s =>
        have hs : s = "" := by simpa [falsy, hv] using h
        simp [hs]
    unfold mainStart mainSubmit
    refine Run.head_bind _ _ _ ?_
    unfold mainPrepare
    refine Run.head_bind _ _ _ ?_
    simp [Run.call, providerUrl, hq, String.append_assoc]
  · exact (mainStart_runs w key token source gistUrl id hco).1
  · simp [mainSecrets, h, JsValue.stringify, JsValue.stringifyProps]
    rfl
  · obtain ⟨hres, hf⟩ := mainStart_runs w key token source gistUrl id hco
    have hM : (JsValue.stringify (mainSecrets w)).getD "undefined" = "\x7b\x7d" := by
      simp [mainSecrets, h, JsValue.stringify, JsValue.stringifyProps]
      rfl
    rw [hM] at hf
    have hmem : ∀ e, e ∈ (mainStart w).trace.filter
        (fun e => e.isCrypto || e.isUpload || e.isSubmission) → e ∈ (mainStart w).trace :=
      fun e he => (List.mem_filter.mp he).1
    refine ⟨hres, hmem _ (by rw [hf]; simp), ?_, hmem _ (by rw [hf]; simp)⟩
    exact ⟨"encrypted-functions-request-data-" ++ toString w.now ++ ".json", _,
      hmem (.githubPostGist ("token " ++ token)
        ("encrypted-functions-request-data-" ++ toString w.now ++ ".json") _)
        (by rw [hf]; simp; rfl)⟩
  · intro fl respond args
    rw [requestSource_no_key fl respond args none rfl]
    exact ⟨⟨_, rfl⟩, by simp⟩

/-- C10, witness: the token conjunct in a world where only the gist token is
missing, so that `main` reaches the token check; the deployer-key conjunct in
a world where only that key is missing; the other two in a world where the RPC
endpoint key and the scored-text API key are missing and everything else is
in place. -/
theorem missing_variables_witness :
    ((falsy ((World.demo (envOf [("DEPLOYER_PRIVATE_KEY", "0xkey")]) .null []).env
          "GITHUB_API_TOKEN") = true ∧
        (mainStart (World.demo (envOf [("DEPLOYER_PRIVATE_KEY", "0xkey")]) .null [])).result =
          .error (.error "GITHUB_API_TOKEN environment variable not set")) ∧
        (mainStart (World.demo (envOf [("DEPLOYER_PRIVATE_KEY", "0xkey")]) .null [])).FailsWithin
          (fun e => !e.isGithub && !e.isSubmission)) ∧
      (falsy ((World.demo (envOf [("GITHUB_API_TOKEN", "ghp_t")]) .null []).env
          "DEPLOYER_PRIVATE_KEY") = true ∧
        (mainStart (World.demo (envOf [("GITHUB_API_TOKEN", "ghp_t")]) .null [])).FailsWithin
          (fun e => !e.isCrypto && !e.isGithub && !e.isSubmission)) ∧
      ((falsy ((World.demo (envOf [("DEPLOYER_PRIVATE_KEY", "0xkey"),
            ("GITHUB_API_TOKEN", "ghp_t")]) .null []).env "QUICKNODE_API_KEY") = true ∧
          (World.demo (envOf [("DEPLOYER_PRIVATE_KEY", "0xkey"),
            ("GITHUB_API_TOKEN", "ghp_t")]) .null []).env "OPENAI_API_KEY" = none ∧
          (World.demo (envOf [("DEPLOYER_PRIVATE_KEY", "0xkey"),
            ("GITHUB_API_TOKEN", "ghp_t")]) .null []).Cooperates "0xkey" "ghp_t"
              "contents of ./scripts/OpenAI-request.js" "https://gist.github.com/u/abc123"
              "0x01") ∧
        (mainStart (World.demo (envOf [("DEPLOYER_PRIVATE_KEY", "0xkey"),
            ("GITHUB_API_TOKEN", "ghp_t")]) .null [])).result =
          .ok ⟨"0x01", some true, .text "0xenc(d0,https://gist.github.com/u/abc123/raw)",
            some "https://gist.github.com/u/abc123"⟩ ∧
        Effect.sign "0xkey" "keccak(\x7b\x7d)" ∈
          (mainStart (World.demo (envOf [("DEPLOYER_PRIVATE_KEY", "0xkey"),
            ("GITHUB_API_TOKEN", "ghp_t")]) .null [])).trace) :=
  have hco : (World.demo (envOf [("DEPLOYER_PRIVATE_KEY", "0xkey"),
      ("GITHUB_API_TOKEN", "ghp_t")]) .null []).Cooperates "0xkey" "ghp_t"
      "contents of ./scripts/OpenAI-request.js" "https://gist.github.com/u/abc123" "0x01" :=
    ⟨rfl, by decide, rfl, by decide, rfl, ⟨_, rfl⟩, rfl, ⟨_, rfl⟩, rfl, fun _ _ => rfl,
      fun _ => rfl, rfl⟩
  ⟨⟨⟨rfl, rfl⟩,
      ((missing_variables (World.demo (envOf [("DEPLOYER_PRIVATE_KEY", "0xkey")]) .null [])).1
        rfl).1⟩,
    ⟨rfl,
      ((missing_variables (World.demo (envOf [("GITHUB_API_TOKEN", "ghp_t")]) .null [])).2.1
        rfl).1⟩,
    ⟨rfl, rfl, hco⟩,
    ((missing_variables (World.demo (envOf [("DEPLOYER_PRIVATE_KEY", "0xkey"),
      ("GITHUB_API_TOKEN", "ghp_t")]) .null [])).2.2.1 rfl).2 _ _ _ _ _ hco,
    (((missing_variables (World.demo (envOf [("DEPLOYER_PRIVATE_KEY", "0xkey"),
      ("GITHUB_API_TOKEN", "ghp_t")]) .null [])).2.2.2 rfl).2.1 _ _ _ _ _ hco).2.1⟩

end Findr
